import Mathlib

/-!
Shallow embedding of the portfolio valuation / aggregation logic of the
Hypofolio repository (a React-Native wallet portfolio tracker), together
with proofs about it.

Conventions of the embedding:

* JavaScript numbers are modelled by `JSNum`: either `NaN` or a finite
  rational.  All numeric data occurring in this repository is produced by
  decimal parsing and +/*, so infinities never arise on the paths studied
  here; division is used only with denominators that the theorems keep
  nonzero (see `Analysis.topFold`).
* `undefined` / absent optional fields are modelled by `Option`.
* The JavaScript builtin `parseFloat` is modelled by `parseFloat` below for
  the decimal forms `[+-]? digits [. digits]` (the only forms this
  repository's balance strings take); any string with no leading digit
  yields NaN, as in JS.
* `Math.random()` (used by the mock price table of the wallet-detail
  screen) is modelled by an explicit oracle argument `rand : String → ℚ`
  giving the value drawn for a symbol's fallback price.
* `Array.prototype.sort` with the comparator `(a, b) => b.usdValue - a.usdValue`
  is modelled by a stable insertion sort `sortByUsdDesc`; for inputs whose
  usd values are all non-NaN this is exactly the (unique) result mandated
  by the ECMAScript specification for a consistent comparator.
-/

/-- A JavaScript number: NaN, or a finite value (modelled as a rational). -/
inductive JSNum where
  | nan : JSNum
  | num : ℚ → JSNum
deriving DecidableEq, Repr

namespace JSNum

/-- JS addition: NaN absorbs. -/
def add : JSNum → JSNum → JSNum
  | num a, num b => num (a + b)
  | _, _ => nan

/-- JS multiplication: NaN absorbs.  (No infinities arise in this code base.) -/
def mul : JSNum → JSNum → JSNum
  | num a, num b => num (a * b)
  | _, _ => nan

/-- JS strict comparison `x > y`: false whenever either side is NaN. -/
def gtB : JSNum → JSNum → Bool
  | num a, num b => decide (b < a)
  | _, _ => false

/-- JS comparison `x >= y`: false whenever either side is NaN. -/
def geB : JSNum → JSNum → Bool
  | num a, num b => decide (b ≤ a)
  | _, _ => false

/-- JS truthiness of a number: `0` and `NaN` are falsy. -/
def truthy : JSNum → Bool
  | num a => decide (a ≠ 0)
  | nan => false

/-- The rational carried by a defined value, `0` for NaN. -/
def toQ : JSNum → ℚ
  | num a => a
  | nan => 0

@[simp] theorem add_num_num (a b : ℚ) : add (num a) (num b) = num (a + b) := rfl

@[simp] theorem add_nan_left (x : JSNum) : add nan x = nan := rfl

@[simp] theorem add_nan_right (x : JSNum) : add x nan = nan := by
  cases x <;> rfl

@[simp] theorem mul_num_num (a b : ℚ) : mul (num a) (num b) = num (a * b) := rfl

@[simp] theorem toQ_num (a : ℚ) : toQ (num a) = a := rfl

@[simp] theorem num_ne_nan (a : ℚ) : num a ≠ nan := by simp

@[simp] theorem nan_ne_num (a : ℚ) : nan ≠ num a := by simp

end JSNum

/-- JS truthiness of an optional number field: absent (`undefined`), `0`
and `NaN` are falsy. -/
def truthyOpt : Option JSNum → Bool
  | some x => x.truthy
  | none => false

/-- JS `x || y` for an optional numeric field `x` with default `y`. -/
def jsOr (x : Option JSNum) (y : JSNum) : JSNum :=
  if truthyOpt x then x.getD (JSNum.num 0) else y

/-- JS `Math.round`: round to the nearest integer, halves towards +∞. -/
def jsRound (q : ℚ) : ℤ := ⌊q + 1 / 2⌋

section ParseFloat

/-- Longest digit prefix of a character list: accumulated value, number of
digits consumed, and the rest of the input. -/
def parseDigits : List Char → ℕ → ℕ → ℕ × ℕ × List Char
  | c :: cs, acc, n =>
      if c.isDigit then parseDigits cs (10 * acc + (c.toNat - 48)) (n + 1)
      else (acc, n, c :: cs)
  | [], acc, n => (acc, n, [])

/-- Fractional part: value of the digits after a decimal point, if present. -/
def parseFrac : List Char → ℕ × ℕ
  | '.' :: cs =>
      let r := parseDigits cs 0 0
      (r.1, r.2.1)
  | _ => (0, 0)

/-- Discrete part of `parseFloat`: `none` when no digit is found (NaN),
otherwise the sign, integer-part value, fractional-part value and number of
fractional digits of the longest numeric prefix. -/
def parseFloatP (cs : List Char) : Option (Bool × ℕ × ℕ × ℕ) :=
  let signed : Bool × List Char :=
    match cs with
    | '-' :: rest => (true, rest)
    | '+' :: rest => (false, rest)
    | _ => (false, cs)
  let ip := parseDigits signed.2 0 0
  let fp := parseFrac ip.2.2
  if ip.2.1 + fp.2 = 0 then none
  else some (signed.1, ip.1, fp.1, fp.2)

/-- Model of the JavaScript builtin `parseFloat` on the decimal forms
`[+-]? digits [. digits]` that occur in this repository's balance strings:
the longest numeric prefix is parsed, and a string with no digit in that
position yields NaN.  (Exponents, `Infinity` and leading whitespace do not
occur in this repository's data and are not modelled.) -/
def parseFloat (s : String) : JSNum :=
  match parseFloatP s.toList with
  | none => JSNum.nan
  | some (neg, ip, fp, fc) =>
      JSNum.num ((if neg then -1 else 1) * ((ip : ℚ) + (fp : ℚ) / (10 : ℚ) ^ fc))

/-- Rewriting helper: a successful parse evaluates to its rational value. -/
theorem parseFloat_eq_num {s : String} {neg : Bool} {ip fp fc : ℕ}
    (h : parseFloatP s.toList = some (neg, ip, fp, fc)) :
    parseFloat s = JSNum.num ((if neg then -1 else 1) * ((ip : ℚ) + (fp : ℚ) / (10 : ℚ) ^ fc)) := by
  unfold parseFloat
  rw [h]

/-- Rewriting helper: a failed parse evaluates to NaN. -/
theorem parseFloat_eq_nan {s : String} (h : parseFloatP s.toList = none) :
    parseFloat s = JSNum.nan := by
  unfold parseFloat
  rw [h]

example : parseFloat "2" = JSNum.num 2 := by
  rw [parseFloat_eq_num (by decide : parseFloatP "2".toList = some (false, 2, 0, 0))]
  norm_num
example : parseFloat "abc" = JSNum.nan :=
  parseFloat_eq_nan (by decide)
example : parseFloat "2.0" = JSNum.num 2 := by
  rw [parseFloat_eq_num (by decide : parseFloatP "2.0".toList = some (false, 2, 0, 1))]
  norm_num
example : parseFloat "1.5" = JSNum.num (3 / 2) := by
  rw [parseFloat_eq_num (by decide : parseFloatP "1.5".toList = some (false, 1, 5, 1))]
  norm_num

end ParseFloat

/-- Model of JS `String.prototype.trim` over the character list (the
builtin `String.trim` is byte-position based and not kernel-evaluable). -/
def jsTrim (s : String) : String :=
  ⟨((s.toList.dropWhile Char.isWhitespace).reverse.dropWhile Char.isWhitespace).reverse⟩

/-- Model of JS `String.prototype.startsWith` over the character list. -/
def strStartsWith (s p : String) : Bool :=
  p.toList.isPrefixOf s.toList

/-! ## `app/(tabs)/index.tsx` — wallets screen (live-data variant)

Embeds the `Token` / `Wallet` interfaces (lines 646-665), the valuation
functions `calculateWalletTotalValue` (lines 911-928) and
`calculateTotalPortfolioValue` (lines 930-937), the per-token display value
of `renderWalletItem` (line 990), and the add-wallet pipeline
`resolveHLName` / `handleAddWallet` (lines 702-805). -/

namespace Index

/-- `interface Token` of the wallets screen (optional fields as `Option`). -/
structure Token where
  contractAddress : Option String := none
  symbol : String
  name : String := ""
  balance : String
  rawBalance : Option String := none
  decimals : Int := 18
  isNative : Option Bool := none
  price : Option JSNum := none
  usdValue : Option JSNum := none
  priceChange24h : Option JSNum := none
  marketCap : Option JSNum := none
deriving DecidableEq, Repr

/-- `interface Wallet` of the wallets screen.  The TS type declares
`totalValue: number`, but the code guards `wallet.totalValue !== undefined`,
so at runtime the field may be absent; it is therefore an `Option` here. -/
structure Wallet where
  address : String
  tokens : List Token
  totalValue : Option JSNum
  tokenCount : Option JSNum := none
deriving DecidableEq, Repr

/-- `calculateWalletTotalValue` (index.tsx lines 911-928): return the
wallet-level `totalValue` when it is not `undefined`; otherwise sum the
truthy per-token `usdValue` fields. -/
def calculateWalletTotalValue (w : Wallet) : JSNum :=
  match w.totalValue with
  | some v => v
  | none =>
      w.tokens.foldl
        (fun acc t => if truthyOpt t.usdValue then acc.add (t.usdValue.getD (JSNum.num 0)) else acc)
        (JSNum.num 0)

/-- `calculateTotalPortfolioValue` (index.tsx lines 930-937): reduce over
the tracked wallets, adding each wallet's computed total. -/
def calculateTotalPortfolioValue (wallets : List Wallet) : JSNum :=
  wallets.foldl (fun total w => total.add (calculateWalletTotalValue w)) (JSNum.num 0)

/-- Per-token display value of `renderWalletItem` (index.tsx line 990):
`token.usdValue || (parseFloat(token.balance) * (token.price || 0))`. -/
def renderTokenValue (t : Token) : JSNum :=
  if truthyOpt t.usdValue then t.usdValue.getD (JSNum.num 0)
  else (parseFloat t.balance).mul (jsOr t.price (JSNum.num 0))

/-- Substring test `input.includes('.hl')` of `resolveHLName` (line 704). -/
def includesHl (s : String) : Bool :=
  s.toList.tails.any (fun t => ".hl".toList.isPrefixOf t)

/-- Shape of the `/real-holdings` API response consumed by
`handleAddWallet`; the external fetch itself is a collaborator, so a
successful response body is passed in as data. -/
structure RealHoldings where
  tokens : Option (List Token) := none
  totalValue : Option JSNum := none
  tokenCount : Option JSNum := none
deriving Repr

/-- Result of one `handleAddWallet` invocation: the (possibly updated)
tracked wallet list and the error message set by `setError`, if any. -/
structure AddWalletResult where
  wallets : List Wallet
  error : Option String
deriving Repr

/-- `resolveHLName` (index.tsx lines 702-725): input without the `.hl`
marker is returned as-is with no network call; otherwise the external
resolver's outcome (passed in as `resolved`) decides. -/
def resolveHLName (input : String) (resolved : Except String String) : Except String String :=
  if ¬ includesHl input then Except.ok input
  else resolved

/-- `handleAddWallet` (index.tsx lines 726-805) as a function of the input
string, the collaborator outcomes (alias resolution and holdings fetch) and
the current wallet list.  Every early `setError`-and-return path leaves the
wallet list unchanged; only the final path commits via `saveWallets`. -/
def handleAddWallet (input : String) (resolved : Except String String)
    (fetched : Except String RealHoldings) (wallets : List Wallet) : AddWalletResult :=
  if jsTrim input = "" then
    { wallets := wallets, error := some "Please enter a wallet address or HL domain" }
  else
    match resolveHLName (jsTrim input) resolved with
    | Except.error msg => { wallets := wallets, error := some msg }
    | Except.ok finalAddress =>
        if ¬ (strStartsWith finalAddress "0x" = true ∧ finalAddress.length = 42) then
          { wallets := wallets, error := some "Invalid Ethereum address format" }
        else if wallets.any (fun w => w.address.toLower == finalAddress.toLower) then
          { wallets := wallets, error := some "Wallet already exists" }
        else
          match fetched with
          | Except.error msg => { wallets := wallets, error := some msg }
          | Except.ok data =>
              let newWallet : Wallet :=
                { address := finalAddress
                  tokens := data.tokens.getD []
                  totalValue := some (jsOr data.totalValue (JSNum.num 0))
                  tokenCount := some (jsOr data.tokenCount (JSNum.num 0)) }
              { wallets := wallets ++ [newWallet], error := none }

end Index

/-! ## `src/context/WalletContext.js` — legacy context provider

Embeds `addWallet` (lines 9-25), whose format validation is the regular
expression `/^0x[a-fA-F0-9]{40}$/`. -/

namespace WalletContextJs

/-- Wallet record of the legacy context (`{ address, balance, tokens }`,
token detail irrelevant to the claims settled here). -/
structure CWallet where
  address : String
  balance : String
  tokens : List String
deriving DecidableEq, Repr

/-- One character class `[a-fA-F0-9]` of the validation regex. -/
def isHexDigit (c : Char) : Bool :=
  c.isDigit || ('a' ≤ c ∧ c ≤ 'f') || ('A' ≤ c ∧ c ≤ 'F')

/-- The validation regex `/^0x[a-fA-F0-9]{40}$/` of `addWallet`. -/
def matchesEthRegex (s : String) : Bool :=
  match s.toList with
  | '0' :: 'x' :: rest => rest.length = 40 && rest.all isHexDigit
  | _ => false

/-- `addWallet` (WalletContext.js lines 9-25): regex validation, duplicate
check, then append the new zero-balance wallet.  (The subsequent
`updateBalance` call swallows its own fetch errors, so it never unwinds the
append.) -/
def addWallet (address : String) (wallets : List CWallet) : Except String (List CWallet) :=
  if ¬ matchesEthRegex address then Except.error "Invalid Ethereum address format"
  else if wallets.any (fun w => w.address.toLower == address.toLower) then
    Except.error "Wallet already exists"
  else Except.ok (wallets ++ [{ address := address, balance := "0", tokens := [] }])

end WalletContextJs

/-! ## `app/(tabs)/analysis.tsx` — portfolio analysis

Embeds the `WalletHolding` input shape (lines 21-30) and
`calculatePortfolioAnalysis` (lines 83-163).  The JS accumulator object
`allTokens` (string-keyed, insertion-ordered) is modelled as an association
list, and `Object.entries` / `Object.keys` walk it in insertion order, as
ECMAScript guarantees for string keys. -/

namespace Analysis

/-- Token element of `WalletHolding.tokens` (analysis.tsx lines 23-28):
`symbol`, `balance` string, `price` and `usdValue` numbers. -/
structure AToken where
  symbol : String
  balance : String
  price : ℚ
  usdValue : ℚ
deriving DecidableEq, Repr

/-- `interface WalletHolding` (analysis.tsx lines 21-30). -/
structure WalletHolding where
  address : String
  tokens : List AToken
  totalValue : ℚ
deriving DecidableEq, Repr

/-- Aggregate bucket per symbol: `{ totalValue: number; balance: number }`.
The balance accumulates `parseFloat(token.balance)` and may be NaN; it is
never read back into the analysis result. -/
structure Bucket where
  totalValue : ℚ
  balance : JSNum
deriving DecidableEq, Repr

/-- One `allTokens[token.symbol] += …` step: create the zero bucket on
first sight of a symbol (appending, i.e. JS insertion order), then add the
token's usd value and parsed balance into it. -/
def upsertToken (acc : List (String × Bucket)) (t : AToken) : List (String × Bucket) :=
  if acc.any (fun p => p.1 == t.symbol) then
    acc.map (fun p =>
      if p.1 == t.symbol then
        (p.1, { totalValue := p.2.totalValue + t.usdValue
                balance := p.2.balance.add (parseFloat t.balance) })
      else p)
  else
    acc ++ [(t.symbol, { totalValue := 0 + t.usdValue
                         balance := (JSNum.num 0).add (parseFloat t.balance) })]

/-- The double `forEach` of lines 100-110: all per-symbol buckets, in
insertion order. -/
def aggregateTokens (holdings : List WalletHolding) : List (String × Bucket) :=
  holdings.foldl (fun acc w => w.tokens.foldl upsertToken acc) []

/-- `totalPortfolioValue += wallet.totalValue` over all wallets (line 101). -/
def sumTotals (holdings : List WalletHolding) : ℚ :=
  holdings.foldl (fun acc w => acc + w.totalValue) 0

/-- Accumulator of the top-holding scan (lines 112-125): `topPerformer`,
`largestHolding` and `maxValue`. -/
structure TopAcc where
  topPerformer : String
  largestSymbol : String
  largestPct : ℚ
  maxValue : ℚ
deriving DecidableEq, Repr

/-- One step of the `Object.entries(allTokens).forEach` scan (lines
117-125).  The JS percentage is `data.totalValue / totalPortfolioValue * 100`;
rational division stands in for float division (the division is reached only
with `data.totalValue > 0`, and the claims below keep the denominator
positive). -/
def topFold (total : ℚ) (acc : TopAcc) (p : String × Bucket) : TopAcc :=
  if p.2.totalValue > acc.maxValue then
    { topPerformer := p.1
      largestSymbol := p.1
      largestPct := p.2.totalValue / total * 100
      maxValue := p.2.totalValue }
  else acc

/-- The scan over all buckets, started from `'N/A'` / percentage 0 / max 0. -/
def topAccOf (holdings : List WalletHolding) : TopAcc :=
  (aggregateTokens holdings).foldl (topFold (sumTotals holdings))
    { topPerformer := "N/A", largestSymbol := "N/A", largestPct := 0, maxValue := 0 }

/-- `tokenCount = Object.keys(allTokens).length` (line 128). -/
def tokenCountOf (holdings : List WalletHolding) : ℕ :=
  (aggregateTokens holdings).length

/-- The diversification expression of lines 129-132:
`Math.min(100, Math.max(0, 100 - (largestHolding.percentage - 20)))`. -/
def diversificationScore (pct : ℚ) : ℚ :=
  min 100 (max 0 (100 - (pct - 20)))

/-- The three risk levels. -/
inductive Risk where
  | low
  | medium
  | high
deriving DecidableEq, Repr

/-- Risk classification (lines 134-140): default `Medium`, overridden to
`High` when the top share exceeds 70, else to `Low` when the share is below
30 and more than 5 distinct symbols are held. -/
def riskOf (pct : ℚ) (tokenCount : ℕ) : Risk :=
  if pct > 70 then Risk.high
  else if pct < 30 ∧ tokenCount > 5 then Risk.low
  else Risk.medium

/-- `Number.prototype.toFixed(1)` for non-negative magnitudes: nearest
multiple of 1/10, ties towards the larger value, printed with one decimal. -/
def toFixed1Aux (m : ℕ) : String :=
  toString (m / 10) ++ "." ++ toString (m % 10)

/-- `x.toFixed(1)` as used on the percentage (line 145). -/
def toFixed1 (x : ℚ) : String :=
  let n : ℤ := ⌊x * 10 + 1 / 2⌋
  if n < 0 then "-" ++ toFixed1Aux n.natAbs else toFixed1Aux n.toNat

/-- Branch-1 recommendation text (line 145). -/
def concentrationMessage (topPerformer : String) (pct : ℚ) : String :=
  let pctStr := toFixed1 pct
  s!"Your portfolio is heavily concentrated in {topPerformer} ({pctStr}%). Consider diversifying into other assets to reduce risk."

/-- Branch-2 recommendation text (line 147). -/
def limitedMessage : String :=
  "Your portfolio has limited diversification. Consider adding more different tokens to spread risk."

/-- Branch-3 recommendation text (line 149). -/
def excellentMessage : String :=
  "Excellent diversification! Your portfolio shows good balance across different assets."

/-- Branch-4 recommendation text (line 151). -/
def rebalanceMessage (topPerformer : String) : String :=
  s!"Your {topPerformer} position is performing well. Consider rebalancing if it becomes too dominant in your portfolio."

/-- The recommendation chain of lines 142-152, first match wins. -/
def recommendationOf (topPerformer : String) (pct : ℚ) (tokenCount : ℕ)
    (diversification : ℚ) : String :=
  if pct > 60 then concentrationMessage topPerformer pct
  else if tokenCount < 3 then limitedMessage
  else if diversification > 80 then excellentMessage
  else rebalanceMessage topPerformer

/-- `largestHolding` component of the result. -/
structure LargestHolding where
  symbol : String
  percentage : ℚ
deriving DecidableEq, Repr

/-- `interface AnalysisData` (analysis.tsx lines 8-19).  `diversification`
is an integer because the result field is `Math.round`ed (line 158). -/
structure AnalysisData where
  totalValue : ℚ
  topPerformer : String
  riskLevel : Risk
  recommendation : String
  diversification : ℤ
  tokenCount : ℕ
  largestHolding : LargestHolding
deriving DecidableEq, Repr

/-- The fixed result returned for an empty holdings list (lines 84-93). -/
def emptyAnalysis : AnalysisData :=
  { totalValue := 0
    topPerformer := "N/A"
    riskLevel := Risk.low
    recommendation := "Add some wallets to start building your portfolio."
    diversification := 0
    tokenCount := 0
    largestHolding := { symbol := "N/A", percentage := 0 } }

/-- `calculatePortfolioAnalysis` (analysis.tsx lines 83-163). -/
def calculatePortfolioAnalysis (holdings : List WalletHolding) : AnalysisData :=
  if holdings.length = 0 then emptyAnalysis
  else
    let totalPortfolioValue := sumTotals holdings
    let top := topAccOf holdings
    let tokenCount := tokenCountOf holdings
    let diversification := diversificationScore top.largestPct
    { totalValue := totalPortfolioValue
      topPerformer := top.topPerformer
      riskLevel := riskOf top.largestPct tokenCount
      recommendation := recommendationOf top.topPerformer top.largestPct tokenCount diversification
      diversification := jsRound diversification
      tokenCount := tokenCount
      largestHolding := { symbol := top.largestSymbol, percentage := top.largestPct } }

end Analysis

/-! ## Stable sort model

`Array.prototype.sort((a, b) => b.usdValue - a.usdValue)` sorts by
descending usd value.  Since ES2019 `sort` is required to be stable, and for
a consistent comparator (here: whenever no usd value is NaN) sortedness plus
stability determine the output uniquely, so any stable descending sort is an
exact model; a stable insertion sort is used. -/

/-- Insert `x` (later in input order than everything in the list) in front
of the first element whose key does not exceed `x`'s key. -/
def insertByUsd {α : Type} (usd : α → JSNum) (x : α) : List α → List α
  | [] => [x]
  | y :: ys => if (usd x).geB (usd y) then x :: y :: ys else y :: insertByUsd usd x ys

/-- Stable insertion sort by descending `usd` key. -/
def sortByUsdDesc {α : Type} (usd : α → JSNum) (l : List α) : List α :=
  l.foldr (insertByUsd usd) []

/-! ## `app/wallet/[address].tsx` — wallet-detail screen (mock-price variant)

Embeds the `Token` / `Wallet` / `TokenWithValue` interfaces (lines 10-26)
and `calculateTokenValues` (lines 66-110) together with its helpers
`getMockPrice` and `getMockChange24h` (lines 112-140).  The `Math.random()`
draw of the two helpers is abstracted into explicit oracles
`rand randC : String → ℚ` giving the draw used for a symbol's fallback. -/

namespace WalletDetail

/-- `interface Token` (lines 10-16). -/
structure Token where
  symbol : String
  balance : String
  decimals : Int
  price : Option JSNum := none
  change24h : Option JSNum := none
deriving DecidableEq, Repr

/-- `interface Wallet` (lines 18-22). -/
structure Wallet where
  address : String
  balance : String
  tokens : List Token
deriving DecidableEq, Repr

/-- `interface TokenWithValue` (lines 24-26): a token whose `price`,
`change24h` and `usdValue` have been filled in by `calculateTokenValues`. -/
structure TokenWithValue where
  symbol : String
  balance : String
  decimals : Int
  price : ℚ
  change24h : ℚ
  usdValue : JSNum
deriving DecidableEq, Repr

/-- The fixed price table of `getMockPrice` (lines 112-125). -/
def mockPrices : List (String × ℚ) :=
  [("ETH", 2902.26), ("BTC", 43298.89), ("USDT", 1.00), ("USDC", 1.00),
   ("LINK", 14.52), ("UNI", 8.76), ("XRP", 0.202252), ("BCH", 396.76),
   ("XMR", 94.12)]

/-- `getMockPrice`: `prices[symbol] || Math.random() * 100`; `rand s` is the
`Math.random()` draw used for symbol `s`. -/
def getMockPrice (rand : String → ℚ) (s : String) : ℚ :=
  match mockPrices.lookup s with
  | some p => if p = 0 then rand s * 100 else p
  | none => rand s * 100

/-- The fixed 24h-change table of `getMockChange24h` (lines 127-140). -/
def mockChanges : List (String × ℚ) :=
  [("ETH", -1.99), ("BTC", -3.37), ("USDT", 0.01), ("USDC", -0.02),
   ("LINK", 2.15), ("UNI", 4.32), ("XRP", -1.25), ("BCH", -3.90),
   ("XMR", 2.97)]

/-- `getMockChange24h`: `changes[symbol] || (Math.random() - 0.5) * 10`. -/
def getMockChange24h (randC : String → ℚ) (s : String) : ℚ :=
  match mockChanges.lookup s with
  | some c => if c = 0 then (randC s - 0.5) * 10 else c
  | none => (randC s - 0.5) * 10

/-- The list built by `calculateTokenValues` before sorting: the ETH entry
when `wallet.balance` is truthy and parses positive (lines 71-87), then one
valued entry per token (lines 89-100). -/
def valuedTokens (rand randC : String → ℚ) (w : Wallet) : List TokenWithValue :=
  let ethPart : List TokenWithValue :=
    if w.balance ≠ "" ∧ (parseFloat w.balance).gtB (JSNum.num 0) then
      [{ symbol := "ETH"
         balance := w.balance
         decimals := 18
         price := getMockPrice rand "ETH"
         change24h := getMockChange24h randC "ETH"
         usdValue := (parseFloat w.balance).mul (JSNum.num (getMockPrice rand "ETH")) }]
    else []
  ethPart ++ w.tokens.map (fun t =>
    { symbol := t.symbol
      balance := t.balance
      decimals := t.decimals
      price := getMockPrice rand t.symbol
      change24h := getMockChange24h randC t.symbol
      usdValue := (parseFloat t.balance).mul (JSNum.num (getMockPrice rand t.symbol)) })

/-- `calculateTokenValues` (lines 66-110): value every holding, then sort by
descending usd value (line 103). -/
def calculateTokenValues (rand randC : String → ℚ) (w : Wallet) : List TokenWithValue :=
  sortByUsdDesc (fun t => t.usdValue) (valuedTokens rand randC w)

/-- The `portfolioValue` accumulated alongside (lines 68, 78, 96). -/
def totalValueOf (rand randC : String → ℚ) (w : Wallet) : JSNum :=
  (valuedTokens rand randC w).foldl (fun acc t => acc.add t.usdValue) (JSNum.num 0)

end WalletDetail

/-! ## live wallet-detail screen (`src/unnamed/part_004`, lines 1013-1376)

Embeds the `Token` / `RealToken` / `Wallet` interfaces (lines 1013-1056),
the legacy valuation path of `calculateTokenValues` (lines 1168-1203), and
the rendered asset list (line 1347), which filters the valued holdings to
those worth at least one cent. -/

namespace LiveDetail

/-- `marketData` sub-object of `interface Token` (lines 1021-1026). -/
structure MarketData where
  usd : JSNum
  usd_market_cap : JSNum
  usd_24h_vol : JSNum
  usd_24h_change : JSNum
deriving DecidableEq, Repr

/-- `interface Token` (lines 1013-1027). -/
structure Token where
  symbol : String
  balance : String
  decimals : Int
  price : Option JSNum := none
  value : Option JSNum := none
  usdValue : Option JSNum := none
  priceChange24h : Option JSNum := none
  marketData : Option MarketData := none
deriving DecidableEq, Repr

/-- `interface RealToken` (lines 1029-1041). -/
structure RealToken where
  symbol : String
  name : String
  balance : String
  decimals : Int
  contractAddress : Option String := none
  isNative : Option Bool := none
  price : JSNum
  usdValue : JSNum
  priceChange24h : Option JSNum
  lastPriceUpdate : Option String := none
deriving DecidableEq, Repr

/-- `interface Wallet` (lines 1043-1048). -/
structure LWallet where
  address : String
  balance : String
  tokens : List Token
  totalValue : Option JSNum := none
deriving DecidableEq, Repr

/-- The legacy valuation loop of `calculateTokenValues` (lines 1180-1196):
`price = token.price || 0`, `usdValue = token.value || (balance * price)`,
`priceChange24h = token.marketData?.usd_24h_change || null`. -/
def liveValuedTokens (w : LWallet) : List RealToken :=
  w.tokens.map (fun t =>
    let price := jsOr t.price (JSNum.num 0)
    { symbol := t.symbol
      name := t.symbol
      balance := t.balance
      decimals := t.decimals
      price := price
      usdValue := jsOr t.value ((parseFloat t.balance).mul price)
      priceChange24h :=
        match t.marketData with
        | some m => if m.usd_24h_change.truthy then some m.usd_24h_change else none
        | none => none })

/-- The `portfolioValue` accumulated by the same loop (lines 1182-1185). -/
def liveTotalValue (w : LWallet) : JSNum :=
  (liveValuedTokens w).foldl (fun acc t => acc.add t.usdValue) (JSNum.num 0)

/-- The screen state `tokensWithValue` produced by the legacy path: valued
tokens sorted by descending usd value (line 1199). -/
def liveTokensWithValue (w : LWallet) : List RealToken :=
  sortByUsdDesc (fun t => t.usdValue) (liveValuedTokens w)

/-- The rendered asset list (line 1347):
`tokensWithValue.filter(token => token.usdValue >= 0.01)`. -/
def displayedTokens (l : List RealToken) : List RealToken :=
  l.filter (fun t => t.usdValue.geB (JSNum.num (1 / 100)))

/-- The asset list the screen renders for a wallet valued by the legacy
path. -/
def screenAssetList (w : LWallet) : List RealToken :=
  displayedTokens (liveTokensWithValue w)

end LiveDetail

/-! ## Generic helper lemmas -/

/-- Folding JS addition over defined values is rational summation. -/
theorem foldl_add_num {α : Type} (g : α → JSNum) (gq : α → ℚ) :
    ∀ (l : List α), (∀ t ∈ l, g t = JSNum.num (gq t)) → ∀ (a : ℚ),
      l.foldl (fun acc t => acc.add (g t)) (JSNum.num a) = JSNum.num (a + (l.map gq).sum)
  | [], _, a => by simp
  | t :: l, h, a => by
      have ht : g t = JSNum.num (gq t) := h t (by simp)
      have hl : ∀ u ∈ l, g u = JSNum.num (gq u) := fun u hu => h u (by simp [hu])
      simp only [List.foldl_cons, ht, JSNum.add_num_num]
      rw [foldl_add_num g gq l hl (a + gq t)]
      simp [add_assoc]

/-- A NaN accumulator absorbs the whole JS-addition fold. -/
theorem foldl_add_nan {α : Type} (g : α → JSNum) :
    ∀ (l : List α), l.foldl (fun acc t => acc.add (g t)) JSNum.nan = JSNum.nan
  | [] => rfl
  | t :: l => by
      simp only [List.foldl_cons, JSNum.add_nan_left]
      exact foldl_add_nan g l

/-- One NaN contribution turns the whole JS-addition fold into NaN. -/
theorem foldl_add_of_mem_nan {α : Type} (g : α → JSNum) :
    ∀ (l : List α) (t : α), t ∈ l → g t = JSNum.nan → ∀ (acc : JSNum),
      l.foldl (fun acc t => acc.add (g t)) acc = JSNum.nan
  | [], t, ht, _, _ => absurd ht (List.not_mem_nil t)
  | u :: l, t, ht, hnan, acc => by
      rcases List.mem_cons.mp ht with h | h
      · subst h
        simp only [List.foldl_cons, hnan, JSNum.add_nan_right]
        exact foldl_add_nan g l
      · simp only [List.foldl_cons]
        exact foldl_add_of_mem_nan g l t h hnan _

/-- Preservation of a predicate along `List.foldl`. -/
theorem foldl_preserve {α β : Type} (P : β → Prop) (f : β → α → β) :
    ∀ (l : List α) (init : β), P init → (∀ b a, a ∈ l → P b → P (f b a)) →
      P (l.foldl f init)
  | [], init, h0, _ => h0
  | a :: l, init, h0, hstep => by
      simp only [List.foldl_cons]
      exact foldl_preserve P f l (f init a) (hstep init a (by simp) h0)
        (fun b x hx hb => hstep b x (by simp [hx]) hb)

/-! ## Properties of the stable sort model -/

section SortLemmas

variable {α : Type} (usd : α → JSNum)

/-- Insertion produces a permutation (hence the same elements). -/
theorem insertByUsd_perm (x : α) :
    ∀ (l : List α), List.Perm (insertByUsd usd x l) (x :: l)
  | [] => List.Perm.refl _
  | y :: ys => by
      unfold insertByUsd
      by_cases h : (usd x).geB (usd y) = true
      · simp [h]
      · simp only [Bool.not_eq_true] at h
        simp only [h]
        exact ((insertByUsd_perm x ys).cons y).trans (List.Perm.swap x y ys)

/-- Membership in an insertion. -/
theorem mem_insertByUsd {x z : α} {l : List α} :
    z ∈ insertByUsd usd x l ↔ z = x ∨ z ∈ l := by
  constructor
  · intro h
    have := (insertByUsd_perm usd x l).mem_iff.mp h
    simpa using this
  · intro h
    apply (insertByUsd_perm usd x l).mem_iff.mpr
    simpa using h

/-- The sort is a permutation of its input. -/
theorem sortByUsdDesc_perm :
    ∀ (l : List α), List.Perm (sortByUsdDesc usd l) l
  | [] => List.Perm.refl _
  | x :: l => by
      unfold sortByUsdDesc
      simp only [List.foldr_cons]
      exact (insertByUsd_perm usd x _).trans ((sortByUsdDesc_perm l).cons x)

/-- Inserting a defined-key element into a list of defined-key elements
preserves descending pairwise order. -/
theorem pairwise_insertByUsd {x : α} {qx : ℚ} (hx : usd x = JSNum.num qx) :
    ∀ {l : List α}, (∀ y ∈ l, ∃ b : ℚ, usd y = JSNum.num b) →
      l.Pairwise (fun a b => (usd a).geB (usd b) = true) →
      (insertByUsd usd x l).Pairwise (fun a b => (usd a).geB (usd b) = true)
  | [], _, _ => by simp [insertByUsd]
  | y :: ys, hdef, hp => by
      obtain ⟨qy, hy⟩ := hdef y (by simp)
      unfold insertByUsd
      by_cases h : (usd x).geB (usd y) = true
      · simp only [h, if_true]
        refine List.Pairwise.cons ?_ hp
        intro z hz
        rcases List.mem_cons.mp hz with rfl | hz
        · exact h
        · obtain ⟨qz, hqz⟩ := hdef z (by simp [hz])
          have hyz : (usd y).geB (usd z) = true :=
            (List.pairwise_cons.mp hp).1 z hz
          rw [hy, hqz] at hyz
          rw [hx, hqz]
          rw [hx, hy] at h
          simp only [JSNum.geB, decide_eq_true_eq] at h hyz ⊢
          exact hyz.trans h
      · simp only [h, if_false]
        have hys : ∀ y ∈ ys, ∃ b : ℚ, usd y = JSNum.num b :=
          fun z hz => hdef z (by simp [hz])
        refine List.Pairwise.cons ?_ (pairwise_insertByUsd hx hys (List.pairwise_cons.mp hp).2)
        intro z hz
        rcases (mem_insertByUsd usd).mp hz with rfl | hz
        · rw [hx, hy] at h ⊢
          simp only [JSNum.geB, decide_eq_true_eq] at h ⊢
          exact le_of_lt (lt_of_not_le (fun hle => h (by exact_mod_cast hle)))
        · exact (List.pairwise_cons.mp hp).1 z hz

/-- The sorted output of defined-key elements is pairwise descending. -/
theorem pairwise_sortByUsdDesc :
    ∀ {l : List α}, (∀ y ∈ l, ∃ b : ℚ, usd y = JSNum.num b) →
      (sortByUsdDesc usd l).Pairwise (fun a b => (usd a).geB (usd b) = true)
  | [], _ => by simp [sortByUsdDesc]
  | x :: l, hdef => by
      obtain ⟨qx, hx⟩ := hdef x (by simp)
      have hl : ∀ y ∈ l, ∃ b : ℚ, usd y = JSNum.num b :=
        fun z hz => hdef z (by simp [hz])
      unfold sortByUsdDesc
      simp only [List.foldr_cons]
      refine pairwise_insertByUsd usd hx ?_ (pairwise_sortByUsdDesc hl)
      intro z hz
      exact hl z ((sortByUsdDesc_perm usd l).mem_iff.mp hz)

end SortLemmas

section StabilityLemmas

variable {α : Type} (usd : α → JSNum)

/-- Stability at the level of insertion: among elements of one exact key
value, the inserted element (which is earliest in input order) comes first,
and the rest keep their order. -/
theorem filter_insertByUsd {x : α} {qx : ℚ} (hx : usd x = JSNum.num qx) (v : ℚ) :
    ∀ {l : List α}, (∀ y ∈ l, ∃ b : ℚ, usd y = JSNum.num b) →
      (insertByUsd usd x l).filter (fun t => decide (usd t = JSNum.num v)) =
        (if qx = v then [x] else []) ++ l.filter (fun t => decide (usd t = JSNum.num v))
  | [], _ => by
      by_cases h : qx = v <;>
        simp [insertByUsd, hx, h]
  | y :: ys, hdef => by
      obtain ⟨qy, hy⟩ := hdef y (by simp)
      have hys : ∀ z ∈ ys, ∃ b : ℚ, usd z = JSNum.num b :=
        fun z hz => hdef z (by simp [hz])
      unfold insertByUsd
      cases hcond : (usd x).geB (usd y) with
      | true =>
          simp only [hcond, if_true]
          by_cases hv : qx = v <;>
            simp [List.filter_cons, hx, hv]
      | false =>
          simp only [hcond, Bool.false_eq_true, if_false]
          have hlt : qx < qy := by
            rw [hx, hy] at hcond
            simp only [JSNum.geB, decide_eq_false_iff_not] at hcond
            exact lt_of_not_le hcond
          rw [List.filter_cons, List.filter_cons]
          by_cases hyv : qy = v
          · have hxv : ¬ qx = v := fun hc => absurd (hc.trans hyv.symm) (ne_of_lt hlt)
            simp only [hy, hyv, decide_eq_true_eq, if_true]
            rw [filter_insertByUsd hx v hys]
            simp [hxv]
          · simp only [hy, decide_eq_true_eq]
            rw [if_neg (fun hc : JSNum.num qy = JSNum.num v => hyv (by injection hc))]
            rw [filter_insertByUsd hx v hys]
            by_cases hxv : qx = v <;> simp [hxv, hyv]

/-- Stability of the sort: the subsequence of holdings with any one exact
usd value is unchanged by sorting. -/
theorem filter_sortByUsdDesc (v : ℚ) :
    ∀ {l : List α}, (∀ y ∈ l, ∃ b : ℚ, usd y = JSNum.num b) →
      (sortByUsdDesc usd l).filter (fun t => decide (usd t = JSNum.num v)) =
        l.filter (fun t => decide (usd t = JSNum.num v))
  | [], _ => rfl
  | x :: l, hdef => by
      obtain ⟨qx, hx⟩ := hdef x (by simp)
      have hl : ∀ y ∈ l, ∃ b : ℚ, usd y = JSNum.num b :=
        fun z hz => hdef z (by simp [hz])
      unfold sortByUsdDesc
      simp only [List.foldr_cons]
      rw [show List.foldr (insertByUsd usd) [] l = sortByUsdDesc usd l from rfl]
      rw [filter_insertByUsd usd hx v
        (fun z hz => hl z ((sortByUsdDesc_perm usd l).mem_iff.mp hz))]
      rw [filter_sortByUsdDesc v hl]
      rw [List.filter_cons]
      by_cases hv : qx = v
      · simp [hx, hv]
      · simp [hx, hv]

end StabilityLemmas

/-! ## Helper lemmas about the analysis routine -/

namespace Analysis

/-- Unfolding of `calculatePortfolioAnalysis` on a non-empty holdings list. -/
theorem analysis_nonempty {holdings : List WalletHolding} (h : holdings ≠ []) :
    calculatePortfolioAnalysis holdings =
      { totalValue := sumTotals holdings
        topPerformer := (topAccOf holdings).topPerformer
        riskLevel := riskOf (topAccOf holdings).largestPct (tokenCountOf holdings)
        recommendation := recommendationOf (topAccOf holdings).topPerformer
          (topAccOf holdings).largestPct (tokenCountOf holdings)
          (diversificationScore (topAccOf holdings).largestPct)
        diversification := jsRound (diversificationScore (topAccOf holdings).largestPct)
        tokenCount := tokenCountOf holdings
        largestHolding := { symbol := (topAccOf holdings).largestSymbol
                            percentage := (topAccOf holdings).largestPct } } := by
  unfold calculatePortfolioAnalysis
  rw [if_neg (by simpa using h)]

/-- If every holding's usd value is nonpositive, every aggregate bucket's
value is nonpositive. -/
theorem aggregateTokens_nonpos {holdings : List WalletHolding}
    (h : ∀ w ∈ holdings, ∀ t ∈ w.tokens, t.usdValue ≤ 0) :
    ∀ p ∈ aggregateTokens holdings, p.2.totalValue ≤ 0 := by
  unfold aggregateTokens
  have main : ∀ p : String × Bucket, p ∈ holdings.foldl
      (fun acc w => w.tokens.foldl upsertToken acc) [] → p.2.totalValue ≤ 0 := by
    refine foldl_preserve
      (fun (acc : List (String × Bucket)) => ∀ p ∈ acc, p.2.totalValue ≤ 0)
      _ holdings [] ?_ ?_
    · intro p hp
      simp at hp
    · intro acc w hw hacc
      refine foldl_preserve
        (fun (acc2 : List (String × Bucket)) => ∀ p ∈ acc2, p.2.totalValue ≤ 0)
        upsertToken w.tokens acc hacc ?_
      intro acc2 t ht hacc2
      have htv : t.usdValue ≤ 0 := h w hw t ht
      unfold upsertToken
      by_cases hmem : acc2.any (fun p => p.1 == t.symbol) = true
      · simp only [hmem, if_true]
        intro p hp
        obtain ⟨p0, hp0, rfl⟩ := List.mem_map.mp hp
        by_cases heq : (p0.1 == t.symbol) = true
        · simp only [heq, if_true]
          have := hacc2 p0 hp0
          simpa using add_nonpos this htv
        · simp only [Bool.not_eq_true] at heq
          simp only [heq]
          exact hacc2 p0 hp0
      · simp only [Bool.not_eq_true] at hmem
        simp only [hmem, Bool.false_eq_true, if_false]
        intro p hp
        rcases List.mem_append.mp hp with hp | hp
        · exact hacc2 p hp
        · simp only [List.mem_singleton] at hp
          subst hp
          simpa using htv
  exact main

/-- The top-holding scan never fires over nonpositive buckets: the
accumulator stays at its `'N/A'` initialisation. -/
theorem topFold_of_nonpos (total : ℚ) :
    ∀ (l : List (String × Bucket)), (∀ p ∈ l, p.2.totalValue ≤ 0) →
      l.foldl (topFold total)
          { topPerformer := "N/A", largestSymbol := "N/A", largestPct := 0, maxValue := 0 } =
        { topPerformer := "N/A", largestSymbol := "N/A", largestPct := 0, maxValue := 0 }
  | [], _ => rfl
  | p :: l, h => by
      simp only [List.foldl_cons]
      have hstep : topFold total
          { topPerformer := "N/A", largestSymbol := "N/A", largestPct := 0, maxValue := 0 } p =
          { topPerformer := "N/A", largestSymbol := "N/A", largestPct := 0, maxValue := 0 } := by
        unfold topFold
        rw [if_neg]
        simp only [not_lt]
        exact h p (by simp)
      rw [hstep]
      exact topFold_of_nonpos total l (fun q hq => h q (by simp [hq]))

/-- For an all-nonpositive (in particular all-zero-valued) non-empty
portfolio the scan is never entered, so the percentage stays 0. -/
theorem topAccOf_of_nonpos {holdings : List WalletHolding}
    (h : ∀ w ∈ holdings, ∀ t ∈ w.tokens, t.usdValue ≤ 0) :
    topAccOf holdings =
      { topPerformer := "N/A", largestSymbol := "N/A", largestPct := 0, maxValue := 0 } := by
  unfold topAccOf
  exact topFold_of_nonpos _ _ (aggregateTokens_nonpos h)

/-- The clamp expression is bounded below by 0. -/
theorem diversificationScore_nonneg (pct : ℚ) : 0 ≤ diversificationScore pct := by
  unfold diversificationScore
  exact le_min (by norm_num) (le_max_left 0 _)

/-- The clamp expression is bounded above by 100. -/
theorem diversificationScore_le (pct : ℚ) : diversificationScore pct ≤ 100 :=
  min_le_left 100 _

/-- `Math.round` keeps values of `[0, 100]` inside `[0, 100]`. -/
theorem jsRound_mem_Icc {q : ℚ} (h0 : 0 ≤ q) (h1 : q ≤ 100) :
    0 ≤ jsRound q ∧ jsRound q ≤ 100 := by
  unfold jsRound
  constructor
  · have : (0 : ℤ) = ⌊(1 : ℚ) / 2⌋ := by norm_num [Int.floor_eq_iff]
    rw [this]
    exact Int.floor_le_floor (by linarith)
  · have : ⌊(100 : ℚ) + 1 / 2⌋ = 100 := by norm_num [Int.floor_eq_iff]
    calc ⌊q + 1 / 2⌋ ≤ ⌊(100 : ℚ) + 1 / 2⌋ := Int.floor_le_floor (by linarith)
    _ = 100 := this

end Analysis

/-- NaN absorbs JS multiplication on the left. -/
theorem JSNum.mul_nan_left (x : JSNum) : JSNum.mul JSNum.nan x = JSNum.nan := by
  cases x <;> rfl

/-- NaN absorbs JS multiplication on the right. -/
theorem JSNum.mul_nan_right (x : JSNum) : JSNum.mul x JSNum.nan = JSNum.nan := by
  cases x <;> rfl

/-! ## Helper lemmas about the wallets screen -/

namespace Index

/-- The rational carried by a token's usd field (0 when absent or NaN). -/
def usdQ (t : Token) : ℚ := (t.usdValue.getD (JSNum.num 0)).toQ

/-- A wallet with a present `totalValue` is returned as-is, with no
recomputation from the holdings. -/
theorem walletTotal_defined {w : Wallet} {v : JSNum} (h : w.totalValue = some v) :
    calculateWalletTotalValue w = v := by
  unfold calculateWalletTotalValue
  rw [h]

/-- The truthiness-guarded fold of the fallback branch sums the defined usd
values (zero-valued fields are skipped, which adds nothing). -/
theorem fold_truthy_usd :
    ∀ (l : List Token), (∀ t ∈ l, ∃ q : ℚ, t.usdValue = some (JSNum.num q)) → ∀ (a : ℚ),
      l.foldl
          (fun acc t => if truthyOpt t.usdValue then acc.add (t.usdValue.getD (JSNum.num 0)) else acc)
          (JSNum.num a) =
        JSNum.num (a + (l.map usdQ).sum)
  | [], _, a => by simp
  | t :: l, hdef, a => by
      obtain ⟨q, hq⟩ := hdef t (by simp)
      have hl : ∀ u ∈ l, ∃ b : ℚ, u.usdValue = some (JSNum.num b) :=
        fun u hu => hdef u (by simp [hu])
      have husd : usdQ t = q := by simp [usdQ, hq]
      have hb : truthyOpt t.usdValue = decide ¬(q = 0) := by
        rw [hq]
        rfl
      simp only [List.foldl_cons]
      rw [hb]
      by_cases h0 : q = 0
      · rw [if_neg (by simp [h0])]
        rw [fold_truthy_usd l hl a]
        simp [husd, h0]
      · rw [if_pos (by simp [h0]), hq]
        simp only [Option.getD_some, JSNum.add_num_num]
        rw [fold_truthy_usd l hl (a + q)]
        simp [husd, add_assoc]

/-- Fallback valuation of a wallet without a `totalValue`: the sum of the
defined per-token usd fields — the balance and price fields never enter. -/
theorem walletTotal_fallback {w : Wallet} (h : w.totalValue = none)
    (hdef : ∀ t ∈ w.tokens, ∃ q : ℚ, t.usdValue = some (JSNum.num q)) :
    calculateWalletTotalValue w = JSNum.num ((w.tokens.map usdQ).sum) := by
  unfold calculateWalletTotalValue
  rw [h]
  rw [fold_truthy_usd w.tokens hdef 0]
  simp

/-- The raw-shape branch of the per-token display value. -/
theorem renderTokenValue_raw {t : Token} (h : truthyOpt t.usdValue = false) :
    renderTokenValue t = (parseFloat t.balance).mul (jsOr t.price (JSNum.num 0)) := by
  unfold renderTokenValue
  rw [h]
  simp

end Index

/-! ## Claim C1 -/

/-- Raw-shape holding: balance `"2"`, price 10, no usd field. -/
def tRaw : Index.Token :=
  { symbol := "FOO", name := "FOO", balance := "2", price := some (JSNum.num 10) }

/-- Wallet without a wallet-level `totalValue`, holding only `tRaw`. -/
def wRaw : Index.Wallet := { address := "0xc", tokens := [tRaw], totalValue := none }

/-- C1, counterexample: on a wallet without a wallet-level total whose
holding is in the raw shape (no `usdValue`, balance 2, price 10),
`calculateWalletTotalValue` returns 0, not the claimed
`parsedBalance * price = 20`: the fallback sums only `usdValue` fields and
never recomputes from balance and price. -/
theorem wallet_total_raw_counterexample :
    Index.calculateWalletTotalValue wRaw = JSNum.num 0 ∧
    (parseFloat tRaw.balance).mul (jsOr tRaw.price (JSNum.num 0)) = JSNum.num 20 ∧
    Index.calculateWalletTotalValue wRaw ≠ JSNum.num 20 := by
  have h0 : Index.calculateWalletTotalValue wRaw = JSNum.num 0 := rfl
  have h20 : (parseFloat tRaw.balance).mul (jsOr tRaw.price (JSNum.num 0)) = JSNum.num 20 := by
    rw [show tRaw.balance = "2" from rfl,
      parseFloat_eq_num (by decide : parseFloatP "2".toList = some (false, 2, 0, 0)),
      show jsOr tRaw.price (JSNum.num 0) = JSNum.num 10 from by
        simp [jsOr, tRaw, truthyOpt, JSNum.truthy],
      JSNum.mul_num_num]
    norm_num
  refine ⟨h0, h20, ?_⟩
  rw [h0]
  intro hc
  have := JSNum.num.inj hc
  norm_num at this

/-- C1 (amended): `calculateWalletTotalValue` detects the shape through the
wallet-level `totalValue` field: when it is defined it is returned
unchanged with no recomputation; otherwise the wallet total is the sum of
the holdings' defined `usdValue` fields (missing or zero fields contribute
zero), with no `parsedBalance * price` recomputation — that fallback exists
only in the per-holding display value of `renderWalletItem`, where a
missing or null price is treated as zero. -/
theorem wallet_total_shape_detection :
    (∀ (w : Index.Wallet) (v : JSNum), w.totalValue = some v →
      Index.calculateWalletTotalValue w = v) ∧
    (∀ w : Index.Wallet, w.totalValue = none →
      (∀ t ∈ w.tokens, ∃ q : ℚ, t.usdValue = some (JSNum.num q)) →
      Index.calculateWalletTotalValue w = JSNum.num ((w.tokens.map Index.usdQ).sum)) ∧
    (∀ t : Index.Token, truthyOpt t.usdValue = false →
      Index.renderTokenValue t = (parseFloat t.balance).mul (jsOr t.price (JSNum.num 0))) :=
  ⟨fun _ _ h => Index.walletTotal_defined h,
   fun _ h hdef => Index.walletTotal_fallback h hdef,
   fun _ h => Index.renderTokenValue_raw h⟩

/-- Pre-valued wallet used by the C1 witness. -/
def wVal : Index.Wallet := { address := "0xd", tokens := [], totalValue := some (JSNum.num 5) }

/-- Holding with usd value 3. -/
def tA : Index.Token :=
  { symbol := "AAA", name := "AAA", balance := "1", usdValue := some (JSNum.num 3) }

/-- Holding with usd value 0 (falsy, skipped by the fallback sum). -/
def tB : Index.Token :=
  { symbol := "BBB", name := "BBB", balance := "1", usdValue := some (JSNum.num 0) }

/-- Fallback-shape wallet used by the C1 witness. -/
def wFall : Index.Wallet := { address := "0xe", tokens := [tA, tB], totalValue := none }

/-- C1, witness: concrete instances of all three parts. -/
theorem wallet_total_shape_detection_witness :
    Index.calculateWalletTotalValue wVal = JSNum.num 5 ∧
    Index.calculateWalletTotalValue wFall = JSNum.num 3 ∧
    Index.renderTokenValue tRaw = JSNum.num 20 := by
  refine ⟨wallet_total_shape_detection.1 wVal _ rfl, ?_, ?_⟩
  · have hdef : ∀ t ∈ wFall.tokens, ∃ q : ℚ, t.usdValue = some (JSNum.num q) := by
      intro t ht
      rcases List.mem_cons.mp ht with rfl | ht
      · exact ⟨3, rfl⟩
      rcases List.mem_cons.mp ht with rfl | ht
      · exact ⟨0, rfl⟩
      cases ht
    rw [wallet_total_shape_detection.2.1 wFall rfl hdef]
    have : (wFall.tokens.map Index.usdQ).sum = 3 := by
      simp [wFall, tA, tB, Index.usdQ]
    rw [this]
  · rw [wallet_total_shape_detection.2.2 tRaw rfl]
    rw [show tRaw.balance = "2" from rfl,
      parseFloat_eq_num (by decide : parseFloatP "2".toList = some (false, 2, 0, 0)),
      show jsOr tRaw.price (JSNum.num 0) = JSNum.num 10 from by
        simp [jsOr, tRaw, truthyOpt, JSNum.truthy],
      JSNum.mul_num_num]
    norm_num

/-! ## Claim C2 -/

/-- C2: the portfolio total is exactly the sum of the wallets' total
values; and when every wallet's total is computed locally from its
holdings, it equals the sum of all per-holding usd values across all
wallets — exactly, since the model uses rational arithmetic. -/
theorem portfolio_total_sum :
    (∀ (wallets : List Index.Wallet) (f : Index.Wallet → ℚ),
      (∀ w ∈ wallets, w.totalValue = some (JSNum.num (f w))) →
      Index.calculateTotalPortfolioValue wallets = JSNum.num ((wallets.map f).sum)) ∧
    (∀ wallets : List Index.Wallet,
      (∀ w ∈ wallets, w.totalValue = none) →
      (∀ w ∈ wallets, ∀ t ∈ w.tokens, ∃ q : ℚ, t.usdValue = some (JSNum.num q)) →
      Index.calculateTotalPortfolioValue wallets =
        JSNum.num ((wallets.map (fun w => (w.tokens.map Index.usdQ).sum)).sum)) := by
  constructor
  · intro wallets f h
    unfold Index.calculateTotalPortfolioValue
    rw [foldl_add_num Index.calculateWalletTotalValue f wallets
      (fun w hw => Index.walletTotal_defined (h w hw)) 0]
    simp
  · intro wallets h hdef
    unfold Index.calculateTotalPortfolioValue
    rw [foldl_add_num Index.calculateWalletTotalValue
      (fun w => (w.tokens.map Index.usdQ).sum) wallets
      (fun w hw => Index.walletTotal_fallback (h w hw) (hdef w hw)) 0]
    simp

/-- Pre-valued wallet worth 10. -/
def wTen : Index.Wallet := { address := "0xa1", tokens := [], totalValue := some (JSNum.num 10) }

/-- Pre-valued wallet worth 20. -/
def wTwenty : Index.Wallet :=
  { address := "0xa2", tokens := [], totalValue := some (JSNum.num 20) }

/-- C2, witness: both parts at concrete portfolios. -/
theorem portfolio_total_sum_witness :
    Index.calculateTotalPortfolioValue [wTen, wTwenty] = JSNum.num 30 ∧
    Index.calculateTotalPortfolioValue [wFall] = JSNum.num 3 := by
  constructor
  · have h1 : ∀ w ∈ [wTen, wTwenty],
        w.totalValue = some (JSNum.num ((w.totalValue.getD (JSNum.num 0)).toQ)) := by
      intro w hw
      rcases List.mem_cons.mp hw with rfl | hw
      · rfl
      rcases List.mem_cons.mp hw with rfl | hw
      · rfl
      cases hw
    rw [portfolio_total_sum.1 [wTen, wTwenty] (fun w => (w.totalValue.getD (JSNum.num 0)).toQ) h1]
    have : (([wTen, wTwenty]).map (fun w => (w.totalValue.getD (JSNum.num 0)).toQ)).sum = 30 := by
      simp [wTen, wTwenty]
      norm_num
    rw [this]
  · have h1 : ∀ w ∈ [wFall], w.totalValue = none := by
      intro w hw
      rcases List.mem_cons.mp hw with rfl | hw
      · rfl
      cases hw
    have h2 : ∀ w ∈ [wFall], ∀ t ∈ w.tokens, ∃ q : ℚ, t.usdValue = some (JSNum.num q) := by
      intro w hw t ht
      rcases List.mem_cons.mp hw with rfl | hw
      · rcases List.mem_cons.mp ht with rfl | ht
        · exact ⟨3, rfl⟩
        rcases List.mem_cons.mp ht with rfl | ht
        · exact ⟨0, rfl⟩
        cases ht
      cases hw
    rw [portfolio_total_sum.2 [wFall] h1 h2]
    have : (([wFall]).map (fun w => (w.tokens.map Index.usdQ).sum)).sum = 3 := by
      simp [wFall, tA, tB, Index.usdQ]
    rw [this]

/-! ## Claim C3 -/

/-- Raw-shape holding whose balance string does not parse. -/
def tAbc : Index.Token :=
  { symbol := "XYZ", name := "XYZ", balance := "abc", price := some (JSNum.num 10) }

/-- Wallet-detail token with the unparseable balance `"abc"` (USDT has a
fixed mock price of 1, so no randomness is involved). -/
def tokUSDT : WalletDetail.Token := { symbol := "USDT", balance := "abc", decimals := 6 }

/-- Wallet holding only `tokUSDT`, with no native balance. -/
def wAbc : WalletDetail.Wallet := { address := "0xm", balance := "", tokens := [tokUSDT] }

/-- C3, counterexample: the malformed balance `"abc"` with price 10 gives a
display value of NaN, not the claimed 0 — `parseFloat` yields NaN and NaN
propagates through the multiplication — and the wallet-detail total that
sums this holding becomes NaN, so the holding is not a zero contribution. -/
theorem malformed_balance_zero_counterexample :
    Index.renderTokenValue tAbc = JSNum.nan ∧
    JSNum.nan ≠ JSNum.num 0 ∧
    WalletDetail.totalValueOf (fun _ => 0) (fun _ => 0) wAbc = JSNum.nan := by
  have habc : parseFloat "abc" = JSNum.nan := parseFloat_eq_nan (by decide)
  refine ⟨?_, by simp, ?_⟩
  · rw [Index.renderTokenValue_raw (show truthyOpt tAbc.usdValue = false from rfl),
      show tAbc.balance = "abc" from rfl, habc, JSNum.mul_nan_left]
  · simp [WalletDetail.totalValueOf, WalletDetail.valuedTokens, wAbc, tokUSDT, habc,
      JSNum.mul_nan_left]

/-- C3 (amended): an unparseable balance string never raises (the model is
total), but it is not treated as zero: in the raw display shape the
holding's value is NaN, and in the wallet-detail valuation any such holding
turns the whole wallet total into NaN. -/
theorem malformed_balance_nan :
    (∀ t : Index.Token, parseFloat t.balance = JSNum.nan → truthyOpt t.usdValue = false →
      Index.renderTokenValue t = JSNum.nan) ∧
    (∀ (rand randC : String → ℚ) (w : WalletDetail.Wallet) (t : WalletDetail.Token),
      t ∈ w.tokens → parseFloat t.balance = JSNum.nan →
      WalletDetail.totalValueOf rand randC w = JSNum.nan) := by
  constructor
  · intro t hpf hraw
    rw [Index.renderTokenValue_raw hraw, hpf, JSNum.mul_nan_left]
  · intro rand randC w t ht hpf
    unfold WalletDetail.totalValueOf
    refine foldl_add_of_mem_nan (fun (u : WalletDetail.TokenWithValue) => u.usdValue) _
      { symbol := t.symbol
        balance := t.balance
        decimals := t.decimals
        price := WalletDetail.getMockPrice rand t.symbol
        change24h := WalletDetail.getMockChange24h randC t.symbol
        usdValue := (parseFloat t.balance).mul
          (JSNum.num (WalletDetail.getMockPrice rand t.symbol)) } ?_ ?_ _
    · unfold WalletDetail.valuedTokens
      exact List.mem_append.mpr (Or.inr (List.mem_map.mpr ⟨t, ht, rfl⟩))
    · simp [hpf, JSNum.mul_nan_left]

/-- C3, witness: the two parts at the concrete `"abc"` holdings. -/
theorem malformed_balance_nan_witness :
    Index.renderTokenValue tAbc = JSNum.nan ∧
    WalletDetail.totalValueOf (fun _ => 1) (fun _ => 1) wAbc = JSNum.nan := by
  constructor
  · exact malformed_balance_nan.1 tAbc (parseFloat_eq_nan (by decide)) rfl
  · exact malformed_balance_nan.2 (fun _ => 1) (fun _ => 1) wAbc tokUSDT
      (by simp [wAbc]) (parseFloat_eq_nan (by decide))

/-! ## Claim C4 -/

/-- Non-empty portfolio with zero total value: one wallet, one token with
usd value 0, wallet total 0. -/
def zeroHoldings : List Analysis.WalletHolding :=
  [{ address := "0x1", tokens := [{ symbol := "ETH", balance := "0", price := 0, usdValue := 0 }],
     totalValue := 0 }]

/-- C4, counterexample: a non-empty wallet list with zero total value does
not receive the fixed empty result — only `holdings.length === 0` is
special-cased.  Here the result has diversification 100 (not 0) and risk
`Medium` (not `Low`). -/
theorem zero_value_not_empty_counterexample :
    Analysis.sumTotals zeroHoldings = 0 ∧
    (Analysis.calculatePortfolioAnalysis zeroHoldings).diversification = 100 ∧
    (Analysis.calculatePortfolioAnalysis zeroHoldings).riskLevel = Analysis.Risk.medium ∧
    Analysis.calculatePortfolioAnalysis zeroHoldings ≠ Analysis.emptyAnalysis := by
  have hne : zeroHoldings ≠ [] := by simp [zeroHoldings]
  have hz : ∀ w ∈ zeroHoldings, ∀ t ∈ w.tokens, t.usdValue ≤ 0 := by
    intro w hw t ht
    rcases List.mem_cons.mp hw with rfl | hw
    · rcases List.mem_cons.mp ht with rfl | ht
      · norm_num
      cases ht
    cases hw
  have htop := Analysis.topAccOf_of_nonpos hz
  have hcount : Analysis.tokenCountOf zeroHoldings = 1 := by
    simp [Analysis.tokenCountOf, Analysis.aggregateTokens, Analysis.upsertToken, zeroHoldings]
  have hscore : Analysis.diversificationScore (0 : ℚ) = 100 := by
    norm_num [Analysis.diversificationScore]
  have hdiv : (Analysis.calculatePortfolioAnalysis zeroHoldings).diversification = 100 := by
    rw [Analysis.analysis_nonempty hne]
    show jsRound (Analysis.diversificationScore (Analysis.topAccOf zeroHoldings).largestPct) = 100
    rw [htop]
    show jsRound (Analysis.diversificationScore 0) = 100
    rw [hscore]
    norm_num [jsRound, Int.floor_eq_iff]
  refine ⟨?_, hdiv, ?_, ?_⟩
  · simp [Analysis.sumTotals, zeroHoldings]
  · rw [Analysis.analysis_nonempty hne]
    show Analysis.riskOf (Analysis.topAccOf zeroHoldings).largestPct
      (Analysis.tokenCountOf zeroHoldings) = Analysis.Risk.medium
    rw [htop, hcount]
    show Analysis.riskOf 0 1 = Analysis.Risk.medium
    unfold Analysis.riskOf
    rw [if_neg (by norm_num), if_neg (by norm_num)]
  · intro hc
    rw [hc] at hdiv
    simp [Analysis.emptyAnalysis] at hdiv

/-- C4 (amended): only the empty wallet list returns the fixed empty result
(total 0, top holding `N/A`, risk `Low`, diversification 0, canned
recommendation, token count 0).  A non-empty list with zero total value is
processed by the normal path: the top-holding scan never fires, the share
stays 0, and the diversification comes out as 100, so the result is not the
empty result. -/
theorem analysis_empty_special_case :
    Analysis.calculatePortfolioAnalysis [] = Analysis.emptyAnalysis ∧
    (∀ holdings : List Analysis.WalletHolding, holdings ≠ [] →
      (∀ w ∈ holdings, ∀ t ∈ w.tokens, t.usdValue ≤ 0) →
      (Analysis.calculatePortfolioAnalysis holdings).diversification = 100 ∧
      (Analysis.calculatePortfolioAnalysis holdings).topPerformer = "N/A" ∧
      (Analysis.calculatePortfolioAnalysis holdings).largestHolding.percentage = 0 ∧
      Analysis.calculatePortfolioAnalysis holdings ≠ Analysis.emptyAnalysis) := by
  refine ⟨rfl, ?_⟩
  intro holdings hne hz
  have htop := Analysis.topAccOf_of_nonpos hz
  have hscore : Analysis.diversificationScore (0 : ℚ) = 100 := by
    norm_num [Analysis.diversificationScore]
  have hdiv : (Analysis.calculatePortfolioAnalysis holdings).diversification = 100 := by
    rw [Analysis.analysis_nonempty hne]
    show jsRound (Analysis.diversificationScore (Analysis.topAccOf holdings).largestPct) = 100
    rw [htop]
    show jsRound (Analysis.diversificationScore 0) = 100
    rw [hscore]
    norm_num [jsRound, Int.floor_eq_iff]
  refine ⟨hdiv, ?_, ?_, ?_⟩
  · rw [Analysis.analysis_nonempty hne]
    show (Analysis.topAccOf holdings).topPerformer = "N/A"
    rw [htop]
  · rw [Analysis.analysis_nonempty hne]
    show (Analysis.topAccOf holdings).largestPct = 0
    rw [htop]
  · intro hc
    rw [hc] at hdiv
    simp [Analysis.emptyAnalysis] at hdiv

/-- C4, witness: the general zero-value statement applied to the concrete
zero-valued portfolio. -/
theorem analysis_empty_special_case_witness :
    (Analysis.calculatePortfolioAnalysis zeroHoldings).diversification = 100 ∧
    (Analysis.calculatePortfolioAnalysis zeroHoldings).topPerformer = "N/A" := by
  have h := analysis_empty_special_case.2 zeroHoldings (by simp [zeroHoldings]) ?_
  · exact ⟨h.1, h.2.1⟩
  · intro w hw t ht
    rcases List.mem_cons.mp hw with rfl | hw
    · rcases List.mem_cons.mp ht with rfl | ht
      · norm_num
      cases ht
    cases hw

/-! ## Claims C5-C7: main theorems -/

/-- C5: on any non-empty portfolio with positive total value the
diversification score computed at lines 128-132 is exactly
`clamp(0, 100, 100 - (share - 20))`; it lies in `[0, 100]` for every share
(the reported integer field, its `Math.round`, does too), a share of
exactly 20 scores 100, and a share of 100 scores 20. -/
theorem diversification_clamp :
    ∀ holdings : List Analysis.WalletHolding, holdings ≠ [] →
      0 < Analysis.sumTotals holdings →
      Analysis.diversificationScore (Analysis.topAccOf holdings).largestPct =
        min 100 (max 0 (100 - ((Analysis.topAccOf holdings).largestPct - 20))) ∧
      (Analysis.calculatePortfolioAnalysis holdings).diversification =
        jsRound (Analysis.diversificationScore (Analysis.topAccOf holdings).largestPct) ∧
      (0 ≤ Analysis.diversificationScore (Analysis.topAccOf holdings).largestPct ∧
        Analysis.diversificationScore (Analysis.topAccOf holdings).largestPct ≤ 100) ∧
      (0 ≤ (Analysis.calculatePortfolioAnalysis holdings).diversification ∧
        (Analysis.calculatePortfolioAnalysis holdings).diversification ≤ 100) ∧
      ((Analysis.topAccOf holdings).largestPct = 20 →
        (Analysis.calculatePortfolioAnalysis holdings).diversification = 100) ∧
      ((Analysis.topAccOf holdings).largestPct = 100 →
        (Analysis.calculatePortfolioAnalysis holdings).diversification = 20) := by
  intro holdings hne _
  have hdiv : (Analysis.calculatePortfolioAnalysis holdings).diversification =
      jsRound (Analysis.diversificationScore (Analysis.topAccOf holdings).largestPct) := by
    rw [Analysis.analysis_nonempty hne]
  have hround := Analysis.jsRound_mem_Icc
    (Analysis.diversificationScore_nonneg (Analysis.topAccOf holdings).largestPct)
    (Analysis.diversificationScore_le (Analysis.topAccOf holdings).largestPct)
  refine ⟨rfl, hdiv, ⟨Analysis.diversificationScore_nonneg _, Analysis.diversificationScore_le _⟩,
    ⟨by rw [hdiv]; exact hround.1, by rw [hdiv]; exact hround.2⟩, ?_, ?_⟩
  · intro h20
    rw [hdiv, h20]
    have : Analysis.diversificationScore (20 : ℚ) = 100 := by
      norm_num [Analysis.diversificationScore]
    rw [this]
    norm_num [jsRound, Int.floor_eq_iff]
  · intro h100
    rw [hdiv, h100]
    have : Analysis.diversificationScore (100 : ℚ) = 20 := by
      norm_num [Analysis.diversificationScore]
    rw [this]
    norm_num [jsRound, Int.floor_eq_iff]

/-- C6: on any non-empty portfolio with positive total value the risk level
is `High` exactly when the top share exceeds 70; `Low` exactly when the
`High` branch did not fire, the share is below 30 and more than 5 distinct
symbols are held; `Medium` otherwise.  (`High` is checked first and
excludes `Low`.) -/
theorem risk_classification :
    ∀ holdings : List Analysis.WalletHolding, holdings ≠ [] →
      0 < Analysis.sumTotals holdings →
      ((Analysis.calculatePortfolioAnalysis holdings).riskLevel = Analysis.Risk.high ↔
        (Analysis.topAccOf holdings).largestPct > 70) ∧
      ((Analysis.calculatePortfolioAnalysis holdings).riskLevel = Analysis.Risk.low ↔
        (¬ (Analysis.topAccOf holdings).largestPct > 70 ∧
          (Analysis.topAccOf holdings).largestPct < 30 ∧ Analysis.tokenCountOf holdings > 5)) ∧
      ((Analysis.calculatePortfolioAnalysis holdings).riskLevel = Analysis.Risk.medium ↔
        (¬ (Analysis.topAccOf holdings).largestPct > 70 ∧
          ¬ ((Analysis.topAccOf holdings).largestPct < 30 ∧
            Analysis.tokenCountOf holdings > 5))) := by
  intro holdings hne _
  rw [Analysis.analysis_nonempty hne]
  show (Analysis.riskOf (Analysis.topAccOf holdings).largestPct
    (Analysis.tokenCountOf holdings) = Analysis.Risk.high ↔ _) ∧ _
  unfold Analysis.riskOf
  by_cases h1 : (Analysis.topAccOf holdings).largestPct > 70
  · simp [h1]
  · by_cases h2 : (Analysis.topAccOf holdings).largestPct < 30 ∧
        Analysis.tokenCountOf holdings > 5
    · simp [h1, h2]
    · simp [h1, h2]

/-- C7: on any non-empty portfolio with positive total value the single
recommendation string is chosen by the first-match-wins chain: share > 60
gives the concentration warning naming the top symbol and percentage; else
fewer than 3 symbols gives the add-more-tokens advice; else diversification
score > 80 gives the positive message; else the neutral rebalancing message
naming the top symbol. -/
theorem recommendation_chain :
    ∀ holdings : List Analysis.WalletHolding, holdings ≠ [] →
      0 < Analysis.sumTotals holdings →
      ((Analysis.topAccOf holdings).largestPct > 60 →
        (Analysis.calculatePortfolioAnalysis holdings).recommendation =
          Analysis.concentrationMessage (Analysis.topAccOf holdings).topPerformer
            (Analysis.topAccOf holdings).largestPct) ∧
      (¬ (Analysis.topAccOf holdings).largestPct > 60 →
        Analysis.tokenCountOf holdings < 3 →
        (Analysis.calculatePortfolioAnalysis holdings).recommendation =
          Analysis.limitedMessage) ∧
      (¬ (Analysis.topAccOf holdings).largestPct > 60 →
        ¬ Analysis.tokenCountOf holdings < 3 →
        Analysis.diversificationScore (Analysis.topAccOf holdings).largestPct > 80 →
        (Analysis.calculatePortfolioAnalysis holdings).recommendation =
          Analysis.excellentMessage) ∧
      (¬ (Analysis.topAccOf holdings).largestPct > 60 →
        ¬ Analysis.tokenCountOf holdings < 3 →
        ¬ Analysis.diversificationScore (Analysis.topAccOf holdings).largestPct > 80 →
        (Analysis.calculatePortfolioAnalysis holdings).recommendation =
          Analysis.rebalanceMessage (Analysis.topAccOf holdings).topPerformer) := by
  intro holdings hne _
  rw [Analysis.analysis_nonempty hne]
  show (_ → Analysis.recommendationOf _ _ _ _ = _) ∧ _
  unfold Analysis.recommendationOf
  refine ⟨fun h1 => by rw [if_pos h1], fun h1 h2 => ?_, fun h1 h2 h3 => ?_, fun h1 h2 h3 => ?_⟩
  · rw [if_neg h1, if_pos h2]
  · rw [if_neg h1, if_neg h2, if_pos h3]
  · rw [if_neg h1, if_neg h2, if_neg h3]

/-! ## Concrete evaluation helpers for the analysis pipeline -/

namespace Analysis

/-- A symbol not yet present gets a fresh bucket appended. -/
theorem upsertToken_fresh {acc : List (String × Bucket)} {t : AToken}
    (h : acc.any (fun p => p.1 == t.symbol) = false) :
    upsertToken acc t = acc ++ [(t.symbol,
      { totalValue := 0 + t.usdValue
        balance := (JSNum.num 0).add (parseFloat t.balance) })] := by
  unfold upsertToken
  rw [if_neg (by simp [h])]

/-- A strictly larger bucket updates the top-holding accumulator. -/
theorem topFold_gt {total : ℚ} {acc : TopAcc} {p : String × Bucket}
    (h : p.2.totalValue > acc.maxValue) :
    topFold total acc p =
      { topPerformer := p.1, largestSymbol := p.1,
        largestPct := p.2.totalValue / total * 100, maxValue := p.2.totalValue } := by
  unfold topFold
  rw [if_pos h]

/-- A bucket not exceeding the current maximum is skipped. -/
theorem topFold_le {total : ℚ} {acc : TopAcc} {p : String × Bucket}
    (h : ¬ p.2.totalValue > acc.maxValue) :
    topFold total acc p = acc := by
  unfold topFold
  rw [if_neg h]

/-- Aggregating pairwise-distinct symbols over an accumulator free of those
symbols appends one fresh bucket per token, in order. -/
theorem foldl_upsert_distinct :
    ∀ (ts : List AToken) (acc : List (String × Bucket)),
      (∀ t ∈ ts, ∀ p ∈ acc, p.1 ≠ t.symbol) →
      ts.Pairwise (fun a b => a.symbol ≠ b.symbol) →
      ts.foldl upsertToken acc =
        acc ++ ts.map (fun t =>
          (t.symbol, { totalValue := 0 + t.usdValue
                       balance := (JSNum.num 0).add (parseFloat t.balance) }))
  | [], acc, _, _ => by simp
  | t :: ts, acc, hna, hp => by
      have hany : acc.any (fun p => p.1 == t.symbol) = false := by
        rw [List.any_eq_false]
        intro p hp2
        simp only [beq_iff_eq]
        exact hna t (by simp) p hp2
      simp only [List.foldl_cons]
      rw [upsertToken_fresh hany]
      rw [foldl_upsert_distinct ts _ ?_ (List.pairwise_cons.mp hp).2]
      · rw [List.append_assoc]
        simp
      · intro u hu p hp2
        rcases List.mem_append.mp hp2 with h | h
        · exact hna u (by simp [hu]) p h
        · simp only [List.mem_singleton] at h
          subst h
          exact (List.pairwise_cons.mp hp).1 u hu

end Analysis

/-- Spec example portfolio: one wallet, one ETH holding worth 4000. -/
def ex1 : List Analysis.WalletHolding :=
  [{ address := "0x9",
     tokens := [{ symbol := "ETH", balance := "2.0", price := 2000, usdValue := 4000 }],
     totalValue := 4000 }]

/-- Five equal holdings of 200 each. -/
def ex5tokens : List Analysis.AToken :=
  [{ symbol := "AAA", balance := "1", price := 200, usdValue := 200 },
   { symbol := "BBB", balance := "1", price := 200, usdValue := 200 },
   { symbol := "CCC", balance := "1", price := 200, usdValue := 200 },
   { symbol := "DDD", balance := "1", price := 200, usdValue := 200 },
   { symbol := "EEE", balance := "1", price := 200, usdValue := 200 }]

/-- Spec boundary example: one wallet, five holdings each worth exactly 20%
of a 1000 total. -/
def ex5 : List Analysis.WalletHolding :=
  [{ address := "0x5", tokens := ex5tokens, totalValue := 1000 }]

/-- Total of the single-holding example. -/
theorem sumTotals_ex1 : Analysis.sumTotals ex1 = 4000 := by
  simp [Analysis.sumTotals, ex1]

/-- Total of the five-holding example. -/
theorem sumTotals_ex5 : Analysis.sumTotals ex5 = 1000 := by
  simp [Analysis.sumTotals, ex5]

/-- Aggregation of the single-holding example. -/
theorem aggregate_ex1 : Analysis.aggregateTokens ex1 =
    [("ETH", { totalValue := 0 + 4000
               balance := (JSNum.num 0).add (parseFloat "2.0") })] := by
  unfold Analysis.aggregateTokens
  simp only [ex1, List.foldl_cons, List.foldl_nil]
  rw [Analysis.upsertToken_fresh (by rfl)]
  simp

/-- Aggregation of the five-holding example. -/
theorem aggregate_ex5 : Analysis.aggregateTokens ex5 =
    ex5tokens.map (fun t =>
      (t.symbol, { totalValue := 0 + t.usdValue
                   balance := (JSNum.num 0).add (parseFloat t.balance) })) := by
  unfold Analysis.aggregateTokens
  simp only [ex5, List.foldl_cons, List.foldl_nil]
  rw [Analysis.foldl_upsert_distinct ex5tokens [] (by intro t ht p hp; cases hp) (by decide)]
  simp

/-- Top holding of the single-holding example: ETH at 100%. -/
theorem topAcc_ex1 : (Analysis.topAccOf ex1).largestPct = 100 ∧
    (Analysis.topAccOf ex1).topPerformer = "ETH" := by
  unfold Analysis.topAccOf
  rw [aggregate_ex1, sumTotals_ex1]
  simp only [List.foldl_cons, List.foldl_nil]
  refine ⟨?_, ?_⟩ <;> norm_num [Analysis.topFold]

/-- Top holding of the five-holding example: the first symbol at 20%. -/
theorem topAcc_ex5 : (Analysis.topAccOf ex5).largestPct = 20 ∧
    (Analysis.topAccOf ex5).topPerformer = "AAA" := by
  unfold Analysis.topAccOf
  rw [aggregate_ex5, sumTotals_ex5]
  simp only [ex5tokens, List.map_cons, List.map_nil, List.foldl_cons, List.foldl_nil]
  refine ⟨?_, ?_⟩ <;> norm_num [Analysis.topFold]

/-- Distinct-symbol count of the single-holding example. -/
theorem tokenCount_ex1 : Analysis.tokenCountOf ex1 = 1 := by
  unfold Analysis.tokenCountOf
  rw [aggregate_ex1]
  rfl

/-- Distinct-symbol count of the five-holding example. -/
theorem tokenCount_ex5 : Analysis.tokenCountOf ex5 = 5 := by
  unfold Analysis.tokenCountOf
  rw [aggregate_ex5]
  rfl

/-- C5, witness: the five-holding example has share exactly 20 and scores
the full 100. -/
theorem diversification_clamp_witness :
    0 < Analysis.sumTotals ex5 ∧
    (Analysis.calculatePortfolioAnalysis ex5).diversification = 100 := by
  have hpos : 0 < Analysis.sumTotals ex5 := by
    rw [sumTotals_ex5]
    norm_num
  exact ⟨hpos,
    (diversification_clamp ex5 (by simp [ex5]) hpos).2.2.2.2.1 topAcc_ex5.1⟩

/-- C6, witness: five symbols at 20% each classify as `Medium` — the
`count > 5` test is strict, so count 5 does not reach `Low`. -/
theorem risk_classification_witness :
    Analysis.tokenCountOf ex5 = 5 ∧
    (Analysis.topAccOf ex5).largestPct = 20 ∧
    (Analysis.calculatePortfolioAnalysis ex5).riskLevel = Analysis.Risk.medium := by
  have hpos : 0 < Analysis.sumTotals ex5 := by
    rw [sumTotals_ex5]
    norm_num
  have h := risk_classification ex5 (by simp [ex5]) hpos
  refine ⟨tokenCount_ex5, topAcc_ex5.1, h.2.2.mpr ⟨?_, ?_⟩⟩
  · rw [topAcc_ex5.1]
    norm_num
  · rw [topAcc_ex5.1, tokenCount_ex5]
    intro hc
    exact absurd hc.2 (by norm_num)

/-- C7, witness: the single-ETH example (share 100% > 60%) selects the
concentration warning naming ETH and its percentage. -/
theorem recommendation_chain_witness :
    (Analysis.calculatePortfolioAnalysis ex1).recommendation =
      Analysis.concentrationMessage "ETH" 100 := by
  have hpos : 0 < Analysis.sumTotals ex1 := by
    rw [sumTotals_ex1]
    norm_num
  have h := (recommendation_chain ex1 (by simp [ex1]) hpos).1 (by rw [topAcc_ex1.1]; norm_num)
  rw [h, topAcc_ex1.1, topAcc_ex1.2]

/-! ## Claim C8 -/

/-- C8 (amended): for wallets whose computed usd values are all actual
numbers (all balances parse), the output of `calculateTokenValues` is the
stable descending reordering of the valued holdings: pairwise
`usdValue`-descending, the subsequence at each exact value unchanged from
input order, and a permutation of the input.  (Determinism over identical
wallet input fails in general because unknown symbols are priced by
`Math.random()`; see the counterexample.) -/
theorem token_sort_stable_descending :
    ∀ (rand randC : String → ℚ) (w : WalletDetail.Wallet),
      (∀ t ∈ WalletDetail.valuedTokens rand randC w, ∃ q : ℚ, t.usdValue = JSNum.num q) →
      (WalletDetail.calculateTokenValues rand randC w).Pairwise
        (fun a b => a.usdValue.geB b.usdValue = true) ∧
      (∀ v : ℚ, (WalletDetail.calculateTokenValues rand randC w).filter
          (fun t => decide (t.usdValue = JSNum.num v)) =
        (WalletDetail.valuedTokens rand randC w).filter
          (fun t => decide (t.usdValue = JSNum.num v))) ∧
      List.Perm (WalletDetail.calculateTokenValues rand randC w)
        (WalletDetail.valuedTokens rand randC w) := by
  intro rand randC w hdef
  unfold WalletDetail.calculateTokenValues
  exact ⟨pairwise_sortByUsdDesc _ hdef,
    fun v => filter_sortByUsdDesc _ v hdef,
    sortByUsdDesc_perm _ _⟩

/-- Random-oracle draw A: 1/2 for FOO, 1/100 otherwise. -/
def randA : String → ℚ := fun s => if s = "FOO" then 1 / 2 else 1 / 100

/-- Random-oracle draw B: 1/100 for FOO, 1/2 otherwise. -/
def randB : String → ℚ := fun s => if s = "FOO" then 1 / 100 else 1 / 2

/-- Wallet with two unit balances of symbols absent from the mock price
table, so both prices come from `Math.random()`. -/
def wFB : WalletDetail.Wallet :=
  { address := "0xr", balance := "",
    tokens := [{ symbol := "FOO", balance := "1", decimals := 18 },
               { symbol := "BAR", balance := "1", decimals := 18 }] }

/-- `parseFloat` of the unit balance. -/
theorem parseFloat_one : parseFloat "1" = JSNum.num 1 := by
  rw [parseFloat_eq_num (by decide : parseFloatP "1".toList = some (false, 1, 0, 0))]
  norm_num

/-- Valued holdings of `wFB` under draw A: FOO at 50, BAR at 1. -/
theorem valuedTokens_randA_wFB :
    WalletDetail.valuedTokens randA randA wFB =
      [{ symbol := "FOO", balance := "1", decimals := 18, price := 50,
         change24h := WalletDetail.getMockChange24h randA "FOO", usdValue := JSNum.num 50 },
       { symbol := "BAR", balance := "1", decimals := 18, price := 1,
         change24h := WalletDetail.getMockChange24h randA "BAR", usdValue := JSNum.num 1 }] := by
  have hpF : WalletDetail.getMockPrice randA "FOO" = 50 := by
    simp only [WalletDetail.getMockPrice,
      show WalletDetail.mockPrices.lookup "FOO" = none from by decide]
    norm_num [randA]
  have hpB : WalletDetail.getMockPrice randA "BAR" = 1 := by
    simp only [WalletDetail.getMockPrice,
      show WalletDetail.mockPrices.lookup "BAR" = none from by decide]
    norm_num [randA, show ¬("BAR" : String) = "FOO" from by decide]
  unfold WalletDetail.valuedTokens
  rw [if_neg (by simp [wFB])]
  simp [wFB, hpF, hpB, parseFloat_one]

/-- Valued holdings of `wFB` under draw B: FOO at 1, BAR at 50. -/
theorem valuedTokens_randB_wFB :
    WalletDetail.valuedTokens randB randB wFB =
      [{ symbol := "FOO", balance := "1", decimals := 18, price := 1,
         change24h := WalletDetail.getMockChange24h randB "FOO", usdValue := JSNum.num 1 },
       { symbol := "BAR", balance := "1", decimals := 18, price := 50,
         change24h := WalletDetail.getMockChange24h randB "BAR", usdValue := JSNum.num 50 }] := by
  have hpF : WalletDetail.getMockPrice randB "FOO" = 1 := by
    simp only [WalletDetail.getMockPrice,
      show WalletDetail.mockPrices.lookup "FOO" = none from by decide]
    norm_num [randB]
  have hpB : WalletDetail.getMockPrice randB "BAR" = 50 := by
    simp only [WalletDetail.getMockPrice,
      show WalletDetail.mockPrices.lookup "BAR" = none from by decide]
    norm_num [randB, show ¬("BAR" : String) = "FOO" from by decide]
  unfold WalletDetail.valuedTokens
  rw [if_neg (by simp [wFB])]
  simp [wFB, hpF, hpB, parseFloat_one]

/-- C8, counterexample: the same wallet input sorted under two different
`Math.random()` draws comes out in two different orders (FOO first under
draw A, BAR first under draw B), so identical input does not always yield
identical output order. -/
theorem token_sort_random_counterexample :
    (WalletDetail.calculateTokenValues randA randA wFB).map (fun t => t.symbol) =
      ["FOO", "BAR"] ∧
    (WalletDetail.calculateTokenValues randB randB wFB).map (fun t => t.symbol) =
      ["BAR", "FOO"] ∧
    WalletDetail.calculateTokenValues randA randA wFB ≠
      WalletDetail.calculateTokenValues randB randB wFB := by
  have hA : (WalletDetail.calculateTokenValues randA randA wFB).map (fun t => t.symbol) =
      ["FOO", "BAR"] := by
    unfold WalletDetail.calculateTokenValues
    rw [valuedTokens_randA_wFB]
    norm_num [sortByUsdDesc, insertByUsd, JSNum.geB]
  have hB : (WalletDetail.calculateTokenValues randB randB wFB).map (fun t => t.symbol) =
      ["BAR", "FOO"] := by
    unfold WalletDetail.calculateTokenValues
    rw [valuedTokens_randB_wFB]
    norm_num [sortByUsdDesc, insertByUsd, JSNum.geB]
  refine ⟨hA, hB, ?_⟩
  intro hc
  rw [hc, hB] at hA
  simp at hA

/-- C8, witness: the sortedness, stability and permutation statement at the
concrete wallet under draw A. -/
theorem token_sort_stable_descending_witness :
    (WalletDetail.calculateTokenValues randA randA wFB).Pairwise
      (fun a b => a.usdValue.geB b.usdValue = true) ∧
    (WalletDetail.calculateTokenValues randA randA wFB).filter
        (fun t => decide (t.usdValue = JSNum.num 1)) =
      (WalletDetail.valuedTokens randA randA wFB).filter
        (fun t => decide (t.usdValue = JSNum.num 1)) := by
  have h := token_sort_stable_descending randA randA wFB ?_
  · exact ⟨h.1, h.2.1 1⟩
  · rw [valuedTokens_randA_wFB]
    intro t ht
    rcases List.mem_cons.mp ht with rfl | ht
    · exact ⟨50, rfl⟩
    rcases List.mem_cons.mp ht with rfl | ht
    · exact ⟨1, rfl⟩
    cases ht

/-! ## Claim C9 -/

/-- Every error path of `handleAddWallet` leaves the tracked wallet list
unchanged: only the final fetch-success path commits. -/
theorem handleAddWallet_error_unchanged :
    ∀ (input : String) (resolved : Except String String)
      (fetched : Except String Index.RealHoldings) (wallets : List Index.Wallet),
      (Index.handleAddWallet input resolved fetched wallets).error ≠ none →
      (Index.handleAddWallet input resolved fetched wallets).wallets = wallets := by
  intro input resolved fetched wallets
  unfold Index.handleAddWallet
  by_cases h1 : jsTrim input = ""
  · rw [if_pos h1]
    intro _
    rfl
  · rw [if_neg h1]
    cases Index.resolveHLName (jsTrim input) resolved with
    | error msg => intro _; rfl
    | ok fin =>
        dsimp only
        by_cases h2 : ¬ (strStartsWith fin "0x" = true ∧ fin.length = 42)
        · rw [if_pos h2]
          intro _
          rfl
        · rw [if_neg h2]
          by_cases h3 : wallets.any (fun w => w.address.toLower == fin.toLower) = true
          · rw [if_pos h3]
            intro _
            rfl
          · rw [if_neg h3]
            cases fetched with
            | error msg => intro _; rfl
            | ok data =>
                dsimp only
                intro hcon
                exact absurd rfl hcon

/-- Non-alias input failing the `0x`-prefix/length-42 check is rejected
with the invalid-format message and no wallet is added. -/
theorem handleAddWallet_invalid_format :
    ∀ (input : String) (resolved : Except String String)
      (fetched : Except String Index.RealHoldings) (wallets : List Index.Wallet),
      jsTrim input ≠ "" → Index.includesHl (jsTrim input) = false →
      ¬ (strStartsWith (jsTrim input) "0x" = true ∧ (jsTrim input).length = 42) →
      Index.handleAddWallet input resolved fetched wallets =
        { wallets := wallets, error := some "Invalid Ethereum address format" } := by
  intro input resolved fetched wallets h1 hhl h2
  unfold Index.handleAddWallet
  rw [if_neg h1]
  rw [show Index.resolveHLName (jsTrim input) resolved = Except.ok (jsTrim input) from by
    unfold Index.resolveHLName
    rw [if_pos (by simp [hhl])]]
  dsimp only
  rw [if_pos h2]

/-- The legacy context provider enforces the full hex regex. -/
theorem contextAddWallet_invalid :
    ∀ (address : String) (wallets : List WalletContextJs.CWallet),
      WalletContextJs.matchesEthRegex address = false →
      WalletContextJs.addWallet address wallets =
        Except.error "Invalid Ethereum address format" := by
  intro address wallets h
  unfold WalletContextJs.addWallet
  rw [if_pos (by simp [h])]

/-- C9 (amended): failures anywhere in the `handleAddWallet` pipeline leave
the tracked collection unchanged, and a non-alias input failing the
screen's format check — only `0x` prefix plus total length 42 — is rejected
with the invalid-format error; the full `0x`-plus-40-hex-digits shape is
enforced only by the legacy `WalletContext.addWallet` regex, so a
42-character non-hex input passes the screen's validation (see the
counterexample). -/
theorem add_wallet_validation :
    (∀ (input : String) (resolved : Except String String)
      (fetched : Except String Index.RealHoldings) (wallets : List Index.Wallet),
      (Index.handleAddWallet input resolved fetched wallets).error ≠ none →
      (Index.handleAddWallet input resolved fetched wallets).wallets = wallets) ∧
    (∀ (input : String) (resolved : Except String String)
      (fetched : Except String Index.RealHoldings) (wallets : List Index.Wallet),
      jsTrim input ≠ "" → Index.includesHl (jsTrim input) = false →
      ¬ (strStartsWith (jsTrim input) "0x" = true ∧ (jsTrim input).length = 42) →
      Index.handleAddWallet input resolved fetched wallets =
        { wallets := wallets, error := some "Invalid Ethereum address format" }) ∧
    (∀ (address : String) (wallets : List WalletContextJs.CWallet),
      WalletContextJs.matchesEthRegex address = false →
      WalletContextJs.addWallet address wallets =
        Except.error "Invalid Ethereum address format") :=
  ⟨handleAddWallet_error_unchanged, handleAddWallet_invalid_format, contextAddWallet_invalid⟩

/-- 42-character input that is `0x` plus 40 non-hex characters. -/
def zAddr : String := "0xZZZZZZZZZZZZZZZZZZZZZZZZZZZZZZZZZZZZZZZZ"

/-- A successful fetch with an empty response body. -/
def okFetch : Except String Index.RealHoldings := Except.ok {}

/-- C9, counterexample: `zAddr` is not of the `0x` + 40-hex-digit shape
(the regex rejects it), yet the wallets screen's `handleAddWallet` accepts
it — its check is only prefix plus length — and, the fetch succeeding, a
wallet is committed: the operation does not fail with an invalid-format
error. -/
theorem add_wallet_nonhex_counterexample :
    WalletContextJs.matchesEthRegex zAddr = false ∧
    (Index.handleAddWallet zAddr (Except.ok zAddr) okFetch []).error = none ∧
    (Index.handleAddWallet zAddr (Except.ok zAddr) okFetch []).wallets =
      [{ address := zAddr, tokens := [], totalValue := some (JSNum.num 0),
         tokenCount := some (JSNum.num 0) }] := by
  have heval : Index.handleAddWallet zAddr (Except.ok zAddr) okFetch [] =
      { wallets := [{ address := zAddr, tokens := [], totalValue := some (JSNum.num 0),
                      tokenCount := some (JSNum.num 0) }],
        error := none } := by
    unfold Index.handleAddWallet
    rw [show jsTrim zAddr = zAddr from by decide]
    rw [if_neg (by decide : ¬ zAddr = "")]
    rw [show Index.resolveHLName zAddr (Except.ok zAddr) = Except.ok zAddr from by
      unfold Index.resolveHLName
      rw [if_pos (by decide)]]
    dsimp only
    rw [if_neg (by decide : ¬ ¬ (strStartsWith zAddr "0x" = true ∧ zAddr.length = 42))]
    rw [if_neg (by simp : ¬ (List.any [] (fun w : Index.Wallet =>
      w.address.toLower == zAddr.toLower) = true))]
    rfl
  exact ⟨by decide, by rw [heval], by rw [heval]⟩

/-- 41-character address from the spec's error-handling example family. -/
def addr41 : String := "0xABCDEF0123456789ABCDEF0123456789ABCDEF0"

/-- C9, witness: the 41-character address is rejected with the
invalid-format error by both implementations, and the collection stays
unchanged. -/
theorem add_wallet_validation_witness :
    Index.handleAddWallet addr41 (Except.ok addr41) okFetch [] =
      { wallets := [], error := some "Invalid Ethereum address format" } ∧
    WalletContextJs.addWallet addr41 [] =
      Except.error "Invalid Ethereum address format" := by
  constructor
  · refine add_wallet_validation.2.1 addr41 (Except.ok addr41) okFetch [] ?_ ?_ ?_
    · rw [show jsTrim addr41 = addr41 from by decide]
      decide
    · rw [show jsTrim addr41 = addr41 from by decide]
      decide
    · rw [show jsTrim addr41 = addr41 from by decide]
      decide
  · exact add_wallet_validation.2.2 addr41 [] (by decide)

/-! ## Claim C10 -/

/-- C10: the rendered asset list of the live wallet-detail screen is
exactly the valued holdings filtered to those with usd value at least 0.01;
a holding worth less than one cent is omitted from the displayed list, while
the screen's total — the sum over all valued holdings — still includes it. -/
theorem dust_filter_display :
    (∀ (l : List LiveDetail.RealToken) (t : LiveDetail.RealToken),
      t ∈ LiveDetail.displayedTokens l ↔
        (t ∈ l ∧ t.usdValue.geB (JSNum.num (1 / 100)) = true)) ∧
    (∀ (l : List LiveDetail.RealToken) (t : LiveDetail.RealToken) (v : ℚ),
      t ∈ l → t.usdValue = JSNum.num v → v < 1 / 100 →
      t ∉ LiveDetail.displayedTokens l) ∧
    (∀ w : LiveDetail.LWallet,
      LiveDetail.screenAssetList w =
        (LiveDetail.liveTokensWithValue w).filter
          (fun t => t.usdValue.geB (JSNum.num (1 / 100)))) ∧
    (∀ w : LiveDetail.LWallet,
      (∀ t ∈ LiveDetail.liveValuedTokens w, ∃ q : ℚ, t.usdValue = JSNum.num q) →
      LiveDetail.liveTotalValue w =
        JSNum.num (((LiveDetail.liveValuedTokens w).map (fun t => t.usdValue.toQ)).sum)) := by
  refine ⟨?_, ?_, fun _ => rfl, ?_⟩
  · intro l t
    exact List.mem_filter
  · intro l t v htl husd hv hcon
    have h2 := (List.mem_filter.mp hcon).2
    rw [husd] at h2
    simp only [JSNum.geB, decide_eq_true_eq] at h2
    linarith
  · intro w hdef
    unfold LiveDetail.liveTotalValue
    rw [foldl_add_num (fun t => t.usdValue) (fun t => t.usdValue.toQ)
      (LiveDetail.liveValuedTokens w) ?_ 0]
    · simp
    · intro t ht
      obtain ⟨q, hq⟩ := hdef t ht
      show t.usdValue = JSNum.num t.usdValue.toQ
      rw [hq]
      rfl

/-- Token worth 100 dollars (pre-valued through the `value` field). -/
def bigTokenIn : LiveDetail.Token :=
  { symbol := "BIG", balance := "1", decimals := 18, value := some (JSNum.num 100) }

/-- Dust token worth half a cent. -/
def dustTokenIn : LiveDetail.Token :=
  { symbol := "DUST", balance := "1", decimals := 18, value := some (JSNum.num (1 / 200)) }

/-- Wallet holding the two tokens above. -/
def wDust : LiveDetail.LWallet :=
  { address := "0xd1", balance := "0", tokens := [bigTokenIn, dustTokenIn] }

/-- Valued form of `bigTokenIn`. -/
def bigR : LiveDetail.RealToken :=
  { symbol := "BIG", name := "BIG", balance := "1", decimals := 18,
    price := JSNum.num 0, usdValue := JSNum.num 100, priceChange24h := none }

/-- Valued form of `dustTokenIn`. -/
def dustR : LiveDetail.RealToken :=
  { symbol := "DUST", name := "DUST", balance := "1", decimals := 18,
    price := JSNum.num 0, usdValue := JSNum.num (1 / 200), priceChange24h := none }

/-- Valuation of `wDust`: the `value` fields are truthy and taken as-is. -/
theorem liveValued_wDust :
    LiveDetail.liveValuedTokens wDust = [bigR, dustR] := by
  unfold LiveDetail.liveValuedTokens
  norm_num [wDust, bigTokenIn, dustTokenIn, bigR, dustR, jsOr, truthyOpt, JSNum.truthy]

/-- C10, witness: the half-cent holding is absent from the rendered list of
`wDust` but still counted in the screen's total of `100 + 1/200`. -/
theorem dust_filter_display_witness :
    dustR ∉ LiveDetail.screenAssetList wDust ∧
    LiveDetail.liveTotalValue wDust = JSNum.num (100 + 1 / 200) := by
  constructor
  · have hmem : dustR ∈ LiveDetail.liveTokensWithValue wDust := by
      unfold LiveDetail.liveTokensWithValue
      refine (sortByUsdDesc_perm _ _).mem_iff.mpr ?_
      rw [liveValued_wDust]
      simp
    exact dust_filter_display.2.1 (LiveDetail.liveTokensWithValue wDust) dustR (1 / 200)
      hmem rfl (by norm_num)
  · have h := dust_filter_display.2.2.2 wDust ?_
    · rw [h, liveValued_wDust]
      norm_num [bigR, dustR, JSNum.toQ]
    · rw [liveValued_wDust]
      intro t ht
      rcases List.mem_cons.mp ht with rfl | ht
      · exact ⟨100, rfl⟩
      rcases List.mem_cons.mp ht with rfl | ht
      · exact ⟨1 / 200, rfl⟩
      cases ht
